import Mathlib

/-!
Verification development for the Multi-Timeframe Trend Signal and Trade
Simulation Engine (institutional_binance_backtester.py and
misterlabsalgototweak.py).

Shallow embedding conventions:
* Python floats are modelled by the rationals; a pandas value that can be
  NaN or infinite is modelled by the type PVal below (nan, inf, ninf, num q),
  with IEEE-style arithmetic and comparisons (comparisons against nan are
  false, as in pandas).
* A pandas Series over a DataFrame column is a List PVal of the same length
  as the frame.
* State that Python mutates in place (current_capital, current_position,
  the trade list) is threaded explicitly through a SimState record.
-/

/-- Pandas/NumPy float value: NaN, plus or minus infinity, or a finite
rational. -/
inductive PVal where
  | nan : PVal
  | inf : PVal
  | ninf : PVal
  | num : ℚ → PVal
deriving DecidableEq, Repr

namespace PVal

/-- IEEE negation. -/
def neg : PVal → PVal
  | nan => nan
  | inf => ninf
  | ninf => inf
  | num q => num (-q)

/-- IEEE addition: nan propagates; inf + (-inf) is nan. -/
def add : PVal → PVal → PVal
  | nan, _ => nan
  | _, nan => nan
  | inf, ninf => nan
  | ninf, inf => nan
  | inf, _ => inf
  | _, inf => inf
  | ninf, _ => ninf
  | _, ninf => ninf
  | num a, num b => num (a + b)

/-- IEEE subtraction. -/
def sub (a b : PVal) : PVal := add a (neg b)

/-- IEEE multiplication: nan propagates; inf times zero is nan. -/
def mul : PVal → PVal → PVal
  | nan, _ => nan
  | _, nan => nan
  | inf, inf => inf
  | inf, ninf => ninf
  | ninf, inf => ninf
  | ninf, ninf => inf
  | inf, num b => if b = 0 then nan else if 0 < b then inf else ninf
  | num a, inf => if a = 0 then nan else if 0 < a then inf else ninf
  | ninf, num b => if b = 0 then nan else if 0 < b then ninf else inf
  | num a, ninf => if a = 0 then nan else if 0 < a then ninf else inf
  | num a, num b => num (a * b)

/-- IEEE division: 0/0 is nan, x/0 is signed infinity, inf/inf is nan,
finite/inf is 0. -/
def div : PVal → PVal → PVal
  | nan, _ => nan
  | _, nan => nan
  | inf, inf => nan
  | inf, ninf => nan
  | ninf, inf => nan
  | ninf, ninf => nan
  | inf, num b => if 0 ≤ b then inf else ninf
  | ninf, num b => if 0 ≤ b then ninf else inf
  | num _, inf => num 0
  | num _, ninf => num 0
  | num a, num b =>
      if b = 0 then (if a = 0 then nan else if 0 < a then inf else ninf)
      else num (a / b)

/-- IEEE absolute value. -/
def pabs : PVal → PVal
  | nan => nan
  | inf => inf
  | ninf => inf
  | num q => num |q|

/-- Strict less-than as pandas evaluates it: any comparison with nan is
false. -/
def ltB : PVal → PVal → Bool
  | nan, _ => false
  | _, nan => false
  | ninf, ninf => false
  | ninf, _ => true
  | _, ninf => false
  | inf, _ => false
  | _, inf => true
  | num a, num b => decide (a < b)

/-- Strict greater-than (pandas semantics). -/
def gtB (a b : PVal) : Bool := ltB b a

/-- Equality test as pandas evaluates it: nan is equal to nothing. -/
def eqB : PVal → PVal → Bool
  | nan, _ => false
  | _, nan => false
  | inf, inf => true
  | ninf, ninf => true
  | num a, num b => decide (a = b)
  | _, _ => false

/-- Row-wise max with skipna=True, as pd.concat(...).max(axis=1): nan
entries are ignored; all-nan gives nan. -/
def maxSkipNa (a b : PVal) : PVal :=
  match a, b with
  | nan, b => b
  | a, nan => a
  | a, b => if ltB a b then b else a

/-- True when the value is NaN (pd.isna on a float value). -/
def isna : PVal → Bool
  | nan => true
  | _ => false

instance : Add PVal := ⟨add⟩
instance : Sub PVal := ⟨sub⟩
instance : Mul PVal := ⟨mul⟩
instance : Neg PVal := ⟨neg⟩
instance : Div PVal := ⟨div⟩

end PVal

/-! ## Strategy parameters and mode selection -/

/-- Trading signal: BUY, SELL or NEUTRAL. -/
inductive Sig where
  | BUY : Sig
  | SELL : Sig
  | NEUTRAL : Sig
deriving DecidableEq, Repr

/-- Mode of the strategy parameter set. -/
inductive Mode where
  | aggressive : Mode
  | conservative : Mode
deriving DecidableEq, Repr

/-- One mode's parameter record (the five named fields of the params
dict in the source). -/
structure StratParams where
  trend_strength_threshold : ℚ
  max_trend_strength_threshold : ℚ
  min_volatility_percentile : ℚ
  profit_target_multiplier : ℚ
  risk_per_trade : ℚ
deriving DecidableEq, Repr

/-- NikesMassiveRocketPhemex.params (misterlabsalgototweak.py lines
48-63). -/
def phemexParams : Mode → StratParams
  | Mode.aggressive =>
      { trend_strength_threshold := 2/10
        max_trend_strength_threshold := 9/10
        min_volatility_percentile := 15
        profit_target_multiplier := 35/10
        risk_per_trade := 4/100 }
  | Mode.conservative =>
      { trend_strength_threshold := 2/10
        max_trend_strength_threshold := 1
        min_volatility_percentile := 15
        profit_target_multiplier := 25/10
        risk_per_trade := 2/100 }

/-- Modelled from the spec: the backtester imports NikesMassiveRocketBinance
from fixed_binance_nike_rocket.py, a file absent from the sources; only its
params dict and confidence_mode_selector are used by the backtester.  The
Phemex source (misterlabsalgototweak.py line 47) declares its params to be
the "Exact same strategy parameters as Binance version", so the Binance
parameter table is modelled as equal to the Phemex one. -/
def binanceParams : Mode → StratParams := phemexParams

/-- NikesMassiveRocketPhemex.confidence_mode_selector (misterlabsalgototweak.py
lines 268-272); the identical static method exists in MRLABS.py lines 35-39
and is the one the backtester calls on its strategy object. -/
def confidence_mode_selector (confidence vol_percentile : ℚ) : ℚ :=
  let vol_factor : ℚ := 1 - vol_percentile / 100
  1/2 * confidence + 1/2 * vol_factor

/-- Mode decision applied to the selector score on every call site:
"aggressive if score >= 0.5 else conservative".  A NaN score (NaN
vol_percentile) compares false and falls to conservative. -/
def modeOfScore : Option ℚ → Mode
  | some s => if 1/2 ≤ s then Mode.aggressive else Mode.conservative
  | none => Mode.conservative

/-- np.sign on a rational. -/
def npSign (q : ℚ) : ℚ :=
  if 0 < q then 1 else if q < 0 then -1 else 0

/-! ## Backtester signal generation (InstitutionalBacktester.generate_signal,
institutional_binance_backtester.py lines 61-109) -/

/-- One row of the prepared (combined) frame as generate_signal reads it.
Fields that can be NaN in the frame are Options (none = NaN); the
vol_percentile and atr14 columns always exist in the prepared frame, so
none here means NaN, not a missing column. -/
structure Row where
  datetime : ℕ
  close : ℚ
  combined_trend : Option ℚ
  timeframe_alignment : Option ℚ
  vol_percentile : Option ℚ
  atr14 : Option ℚ
deriving DecidableEq, Repr

/-- The dict generate_signal returns. -/
structure SignalData where
  signal : Sig
  confidence : ℚ
  mode : Mode
  entry_price : ℚ
  stop_loss : ℚ
  take_profit : ℚ
  atr : ℚ
  risk_per_trade : ℚ
deriving DecidableEq, Repr

/-- InstitutionalBacktester.generate_signal.  Returns none exactly when
combined_trend or timeframe_alignment is NaN (the isna guard on line 64);
the try/except around the body can only fire on those NaNs in this pure
fragment. -/
def generate_signal (params : Mode → StratParams) (row : Row) :
    Option SignalData :=
  match row.combined_trend, row.timeframe_alignment with
  | some combined_trend, some alignment =>
    let vol := row.vol_percentile
    let abs_trend : ℚ := |combined_trend|
    let trend_direction : ℚ := npSign combined_trend
    let confidence := abs_trend
    let score : Option ℚ := vol.map (fun v => confidence_mode_selector confidence v)
    let mode := modeOfScore score
    let p := params mode
    let volGate : Bool :=
      match vol with
      | some v => decide (p.min_volatility_percentile ≤ v) && decide (v ≤ 90)
      | none => false
    let signal : Sig :=
      if decide (p.trend_strength_threshold ≤ abs_trend) &&
         decide (abs_trend ≤ p.max_trend_strength_threshold) &&
         volGate && decide (3/10 < alignment) then
        (if 0 < trend_direction then Sig.BUY else Sig.SELL)
      else Sig.NEUTRAL
    let entry_price := row.close
    let atr : ℚ := row.atr14.getD (entry_price * (2/100))
    let stop_loss : ℚ :=
      match signal with
      | Sig.BUY => entry_price - atr * (3/2)
      | Sig.SELL => entry_price + atr * (3/2)
      | Sig.NEUTRAL => entry_price
    let take_profit : ℚ :=
      match signal with
      | Sig.BUY => entry_price + atr * p.profit_target_multiplier
      | Sig.SELL => entry_price - atr * p.profit_target_multiplier
      | Sig.NEUTRAL => entry_price
    some { signal := signal, confidence := confidence, mode := mode,
           entry_price := entry_price, stop_loss := stop_loss,
           take_profit := take_profit, atr := atr,
           risk_per_trade := p.risk_per_trade }
  | _, _ => none

/-! ## Trade simulation (InstitutionalBacktester.simulate_trade and the
run_backtest loop, institutional_binance_backtester.py lines 111-267) -/

/-- An open position (the dict simulate_trade returns). -/
structure Position where
  entry_time : ℕ
  side : Sig
  entry_price : ℚ
  position_size : ℚ
  leverage : ℚ
  stop_loss : ℚ
  take_profit : ℚ
  entry_fee : ℚ
  mode : Mode
  confidence : ℚ
deriving DecidableEq, Repr

/-- Why a trade closed. -/
inductive ExitReason where
  | StopLoss : ExitReason
  | TakeProfit : ExitReason
  | EndOfData : ExitReason
deriving DecidableEq, Repr

/-- A closed-trade record (the position dict updated on close; the
End-of-Data close in the source does not set total_fees, hence the
Option). -/
structure Trade where
  entry_time : ℕ
  side : Sig
  entry_price : ℚ
  position_size : ℚ
  leverage : ℚ
  stop_loss : ℚ
  take_profit : ℚ
  entry_fee : ℚ
  mode : Mode
  confidence : ℚ
  exit_time : ℕ
  exit_price : ℚ
  exit_reason : ExitReason
  pnl_dollar : ℚ
  pnl_percent : ℚ
  total_fees : Option ℚ
  capital_after : ℚ
deriving DecidableEq, Repr

/-- InstitutionalBacktester.simulate_trade (lines 111-143): position
sizing from risk, leverage from notional over capital clamped into
[1, max_leverage], entry fee on the notional. -/
def simulate_trade (max_leverage trading_fee current_capital : ℚ)
    (sd : SignalData) (current_time : ℕ) : Option Position :=
  if sd.signal = Sig.BUY ∨ sd.signal = Sig.SELL then
    let risk_amount := current_capital * sd.risk_per_trade
    let entry_price := sd.entry_price
    let stop_loss := sd.stop_loss
    let risk_per_unit : ℚ := |entry_price - stop_loss|
    if risk_per_unit ≤ 0 then none
    else
      let position_size := risk_amount / risk_per_unit
      let position_value := position_size * entry_price
      let leverage0 := min (position_value / current_capital) max_leverage
      let leverage := if leverage0 < 1 then 1 else leverage0
      let entry_fee := position_value * trading_fee
      some { entry_time := current_time, side := sd.signal,
             entry_price := entry_price, position_size := position_size,
             leverage := leverage, stop_loss := stop_loss,
             take_profit := sd.take_profit, entry_fee := entry_fee,
             mode := sd.mode, confidence := sd.confidence }
  else none

/-- Exit test of the run loop (lines 190-203): stop-loss is checked
before take-profit, fills are at the stop or target price. -/
def exitCheck (p : Position) (current_price : ℚ) :
    Option (ExitReason × ℚ) :=
  if p.side = Sig.BUY then
    if current_price ≤ p.stop_loss then some (ExitReason.StopLoss, p.stop_loss)
    else if p.take_profit ≤ current_price then some (ExitReason.TakeProfit, p.take_profit)
    else none
  else
    if p.stop_loss ≤ current_price then some (ExitReason.StopLoss, p.stop_loss)
    else if current_price ≤ p.take_profit then some (ExitReason.TakeProfit, p.take_profit)
    else none

/-- Signed price change relative to entry, by side (lines 206-209; the
same formula is repeated at the final close, lines 249-252). -/
def priceChangePct (p : Position) (exit_price : ℚ) : ℚ :=
  if p.side = Sig.BUY then (exit_price - p.entry_price) / p.entry_price
  else (p.entry_price - exit_price) / p.entry_price

/-- Closing a position inside the loop (lines 205-229): leveraged return
on current capital, minus entry and exit fees; returns the new capital and
the trade record. -/
def closeTradeUpdate (trading_fee current_capital : ℚ) (p : Position)
    (exit_price : ℚ) (reason : ExitReason) (current_time : ℕ) :
    ℚ × Trade :=
  let price_change := priceChangePct p exit_price
  let leveraged_return := price_change * p.leverage
  let exit_fee := p.position_size * exit_price * trading_fee
  let total_fees := p.entry_fee + exit_fee
  let pnl_dollar := current_capital * leveraged_return - total_fees
  let capital := current_capital + pnl_dollar
  (capital,
   { entry_time := p.entry_time, side := p.side,
     entry_price := p.entry_price, position_size := p.position_size,
     leverage := p.leverage, stop_loss := p.stop_loss,
     take_profit := p.take_profit, entry_fee := p.entry_fee,
     mode := p.mode, confidence := p.confidence,
     exit_time := current_time, exit_price := exit_price,
     exit_reason := reason, pnl_dollar := pnl_dollar,
     pnl_percent := leveraged_return * 100,
     total_fees := some total_fees, capital_after := capital })

/-- Forced close at the end of the data (lines 246-267): leveraged return
on current capital with NO fee subtraction, exit reason End of Data. -/
def finalCloseUpdate (current_capital : ℚ) (p : Position)
    (final_price : ℚ) (final_time : ℕ) : ℚ × Trade :=
  let pnl_pct := priceChangePct p final_price
  let leveraged_return := pnl_pct * p.leverage
  let pnl_dollar := current_capital * leveraged_return
  let capital := current_capital + pnl_dollar
  (capital,
   { entry_time := p.entry_time, side := p.side,
     entry_price := p.entry_price, position_size := p.position_size,
     leverage := p.leverage, stop_loss := p.stop_loss,
     take_profit := p.take_profit, entry_fee := p.entry_fee,
     mode := p.mode, confidence := p.confidence,
     exit_time := final_time, exit_price := final_price,
     exit_reason := ExitReason.EndOfData, pnl_dollar := pnl_dollar,
     pnl_percent := leveraged_return * 100,
     total_fees := none, capital_after := capital })

/-- Mutable loop state: current_capital, current_position and the trade
log (the equity-curve list recorded on line 178 carries no decision
logic and is omitted). -/
structure SimState where
  capital : ℚ
  position : Option Position
  trades : List Trade
deriving DecidableEq, Repr

/-- The "handle existing position" block of one loop iteration (lines
184-236). -/
def handleExit (trading_fee : ℚ) (s : SimState) (current_price : ℚ)
    (current_time : ℕ) : SimState :=
  match s.position with
  | some p =>
    match exitCheck p current_price with
    | some (reason, exit_price) =>
      let ct := closeTradeUpdate trading_fee s.capital p exit_price reason current_time
      { capital := ct.1, position := none, trades := s.trades ++ [ct.2] }
    | none => s
  | none => s

/-- The "check for new entries" block of one loop iteration (lines
238-244): runs only when no position is held. -/
def tryEntry (params : Mode → StratParams) (max_leverage trading_fee : ℚ)
    (s : SimState) (row : Row) : SimState :=
  match s.position with
  | none =>
    match generate_signal params row with
    | some sd =>
      if sd.signal = Sig.BUY ∨ sd.signal = Sig.SELL then
        match simulate_trade max_leverage trading_fee s.capital sd row.datetime with
        | some pos => { s with position := some pos }
        | none => s
      else s
    | none => s
  | some _ => s

/-- One iteration of the run_backtest loop (lines 167-244): the first 250
bars are skipped, then exits are handled before entries on the same bar. -/
def stepBar (params : Mode → StratParams) (max_leverage trading_fee : ℚ)
    (s : SimState) (ir : ℕ × Row) : SimState :=
  if ir.1 < 250 then s
  else tryEntry params max_leverage trading_fee
         (handleExit trading_fee s ir.2.close ir.2.datetime) ir.2

/-- InstitutionalBacktester.run_backtest simulation (lines 162-267): fold
the loop over the enumerated rows, then force-close any open position at
the last row's close. -/
def run_backtest (params : Mode → StratParams) (max_leverage trading_fee
    initial_capital : ℚ) (rows : List Row) : SimState :=
  let s := rows.enum.foldl (stepBar params max_leverage trading_fee)
    { capital := initial_capital, position := none, trades := [] }
  match s.position, rows.getLast? with
  | some p, some lastRow =>
    let fc := finalCloseUpdate s.capital p lastRow.close lastRow.datetime
    { capital := fc.1, position := none, trades := s.trades ++ [fc.2] }
  | _, _ => s

/-! ## Live signal decision (NikesMassiveRocketPhemex.generate_signals_live,
misterlabsalgototweak.py lines 575-616): the part that turns the latest
row's combined_trend / timeframe_alignment / vol_percentile into a signal
and confidence.  Unlike the backtester there is no alignment gate, and the
volatility filter is the negative test vol < min or vol > 90. -/
def liveSignalDecision (ct al vol : Option ℚ) : Sig × ℚ :=
  match ct, al with
  | some ctv, some _ =>
    let abs_trend : ℚ := |ctv|
    let trend_direction : ℚ := npSign ctv
    let score : Option ℚ := vol.map (fun v => confidence_mode_selector abs_trend v)
    let mode := modeOfScore score
    let p := phemexParams mode
    let s1 : Sig × ℚ :=
      if decide (p.trend_strength_threshold ≤ abs_trend) &&
         decide (abs_trend ≤ p.max_trend_strength_threshold) then
        ((if 0 < trend_direction then Sig.BUY else Sig.SELL), min abs_trend (99/100))
      else (Sig.NEUTRAL, 0)
    match vol with
    | some v =>
      if v < p.min_volatility_percentile ∨ 90 < v then (Sig.NEUTRAL, 0) else s1
    | none => s1
  | _, _ => (Sig.NEUTRAL, 0)

/-! ## Trade-level metrics (InstitutionalBacktester.calculate_institutional_metrics,
institutional_binance_backtester.py lines 325-330 and 351-354) -/

/-- Profit factor result: a finite value or float inf. -/
inductive PFResult where
  | val : ℚ → PFResult
  | posInf : PFResult
deriving DecidableEq, Repr

/-- Sum of the strictly positive trade P&Ls (line 328). -/
def gross_profit (pnls : List ℚ) : ℚ :=
  (pnls.filter (fun x => 0 < x)).sum

/-- Absolute sum of the strictly negative trade P&Ls (line 329). -/
def gross_loss (pnls : List ℚ) : ℚ :=
  |(pnls.filter (fun x => x < 0)).sum|

/-- profit_factor (lines 325-330 for a nonempty trade log, line 352 for
the empty one): gross_profit / gross_loss when gross_loss > 0, float inf
otherwise; 0 when there are no trades. -/
def profit_factor (pnls : List ℚ) : PFResult :=
  if pnls = [] then PFResult.val 0
  else if 0 < gross_loss pnls then PFResult.val (gross_profit pnls / gross_loss pnls)
  else PFResult.posInf

/-! ## Series combinators (pandas operations used by calculate_indicators) -/

/-- A DataFrame column. -/
abbrev Series := List PVal

/-- Lift a NaN-free column of rationals. -/
def liftQ (xs : List ℚ) : Series := xs.map PVal.num

/-- pandas shift(1): a leading NaN, the last value dropped. -/
def shift1 : Series → Series
  | [] => []
  | xs => PVal.nan :: xs.dropLast

/-- pandas diff(): x - x.shift(1). -/
def diffS (xs : Series) : Series := List.zipWith PVal.sub xs (shift1 xs)

/-- Elementwise sum, difference, quotient, absolute value. -/
def sAdd (xs ys : Series) : Series := List.zipWith PVal.add xs ys

def sSub (xs ys : Series) : Series := List.zipWith PVal.sub xs ys

def sDiv (xs ys : Series) : Series := List.zipWith PVal.div xs ys

def sAbs (xs : Series) : Series := xs.map PVal.pabs

/-- Scalar broadcasts: c * s, c + s, c - s, c / s. -/
def sMulC (c : ℚ) (xs : Series) : Series := xs.map (PVal.mul (PVal.num c))

def sAddC (c : ℚ) (xs : Series) : Series := xs.map (PVal.add (PVal.num c))

def subFromC (c : ℚ) (xs : Series) : Series := xs.map (PVal.sub (PVal.num c))

def divCBy (c : ℚ) (xs : Series) : Series := xs.map (PVal.div (PVal.num c))

/-- Comparisons against a scalar (NaN compares false). -/
def sGtC (xs : Series) (c : ℚ) : List Bool := xs.map (fun x => PVal.gtB x (PVal.num c))

def sLtC (xs : Series) (c : ℚ) : List Bool := xs.map (fun x => PVal.ltB x (PVal.num c))

def sEqC (xs : Series) (c : ℚ) : List Bool := xs.map (fun x => PVal.eqB x (PVal.num c))

/-- Elementwise comparison of two columns. -/
def sGt (xs ys : Series) : List Bool := List.zipWith PVal.gtB xs ys

/-- Conjunction of two boolean columns. -/
def sAnd (xs ys : List Bool) : List Bool := List.zipWith and xs ys

/-- series.where(cond, c): keep the value where cond holds, else the
scalar. -/
def whereKeep (cond : List Bool) (xs : Series) (c : ℚ) : Series :=
  List.zipWith (fun b v => if b then v else PVal.num c) cond xs

/-- np.where(cond, c, xs): the scalar where cond holds, else the column. -/
def whereCS (cond : List Bool) (c : ℚ) (xs : Series) : Series :=
  List.zipWith (fun b v => if b then PVal.num c else v) cond xs

/-- fillna(c). -/
def fillnaS (c : ℚ) (xs : Series) : Series :=
  xs.map (fun x => if x = PVal.nan then PVal.num c else x)

/-- tr.iloc[0] = 0 style head assignment. -/
def setHead (c : PVal) : Series → Series
  | [] => []
  | _ :: xs => c :: xs

/-- Row max of three columns, skipna=True (pd.concat(...).max(axis=1)). -/
def maxS3 (a b c : Series) : Series :=
  List.zipWith PVal.maxSkipNa (List.zipWith PVal.maxSkipNa a b) c

/-- pandas ewm(adjust=False).mean() recurrence: a NaN input carries the
previous mean forward (exact for the leading-NaN runs arising here), the
first valid observation seeds, and afterwards y = (1-alpha)*y + alpha*x. -/
def ewmGo (alpha : ℚ) : PVal → Series → Series
  | _, [] => []
  | prev, x :: xs =>
    let y := match x, prev with
      | PVal.nan, p => p
      | v, PVal.nan => v
      | v, p => PVal.add (PVal.mul (PVal.num (1 - alpha)) p) (PVal.mul (PVal.num alpha) v)
    y :: ewmGo alpha y xs

/-- series.ewm(alpha, adjust=False).mean(). -/
def ewmMean (alpha : ℚ) (xs : Series) : Series := ewmGo alpha PVal.nan xs

/-- series.ewm(span, adjust=False).mean(): alpha = 2/(span+1). -/
def emaSpan (span : ℚ) (xs : Series) : Series := ewmMean (2 / (span + 1)) xs

/-- wilder_smooth (misterlabsalgototweak.py lines 307-309):
series.ewm(alpha=1/period, adjust=False).mean(). -/
def wilder_smooth (period : ℚ) (xs : Series) : Series := ewmMean (1 / period) xs

/-- rolling(window).mean() with the default min_periods (the naive
rolling-mean smoothing of MRLABS.py line 72): NaN until the window is
full or when the window holds a NaN. -/
def rollingMean (w : ℕ) (xs : Series) : Series :=
  (List.range xs.length).map (fun i =>
    if w ≤ i + 1 then
      let win := (xs.take (i + 1)).drop (i + 1 - w)
      if win.all (fun x => !PVal.isna x) then
        PVal.div ((win.foldl PVal.add (PVal.num 0))) (PVal.num w)
      else PVal.nan
    else PVal.nan)

/-! ## Indicator engine (NikesMassiveRocketPhemex.calculate_indicators,
misterlabsalgototweak.py lines 274-415).  Each column assignment of the
source becomes one definition over the bar list; columns not consumed by
any downstream decision logic (macd_hist, atr_pct, vol_percentile and the
Bollinger set) are omitted. -/

/-- One OHLCV price bar; datetime is in hours. -/
structure Bar where
  datetime : ℕ
  open_price : ℚ
  high : ℚ
  low : ℚ
  close : ℚ
  volume : ℚ
deriving DecidableEq, Repr

def closes (bars : List Bar) : Series := liftQ (bars.map Bar.close)

def highs (bars : List Bar) : Series := liftQ (bars.map Bar.high)

def lows (bars : List Bar) : Series := liftQ (bars.map Bar.low)

def ema9_col (bars : List Bar) : Series := emaSpan 9 (closes bars)

def ema21_col (bars : List Bar) : Series := emaSpan 21 (closes bars)

def ema50_col (bars : List Bar) : Series := emaSpan 50 (closes bars)

def ema100_col (bars : List Bar) : Series := emaSpan 100 (closes bars)

def ema200_col (bars : List Bar) : Series := emaSpan 200 (closes bars)

/-- ema9 > ema21 > ema50 > ema100 > ema200 (lines 290-293), as a boolean
column. -/
def ema_aligned_bull_col (bars : List Bar) : List Bool :=
  sAnd (sAnd (sGt (ema9_col bars) (ema21_col bars))
             (sGt (ema21_col bars) (ema50_col bars)))
       (sAnd (sGt (ema50_col bars) (ema100_col bars))
             (sGt (ema100_col bars) (ema200_col bars)))

/-- The mirrored descending condition (lines 294-297). -/
def ema_aligned_bear_col (bars : List Bar) : List Bool :=
  sAnd (sAnd (sGt (ema21_col bars) (ema9_col bars))
             (sGt (ema50_col bars) (ema21_col bars)))
       (sAnd (sGt (ema100_col bars) (ema50_col bars))
             (sGt (ema200_col bars) (ema100_col bars)))

def ema12_col (bars : List Bar) : Series := emaSpan 12 (closes bars)

def ema26_col (bars : List Bar) : Series := emaSpan 26 (closes bars)

def macd_col (bars : List Bar) : Series := sSub (ema12_col bars) (ema26_col bars)

def macd_signal_col (bars : List Bar) : Series := emaSpan 9 (macd_col bars)

def delta_col (bars : List Bar) : Series := diffS (closes bars)

/-- delta.where(delta > 0, 0). -/
def gain_col (bars : List Bar) : Series :=
  whereKeep (sGtC (delta_col bars) 0) (delta_col bars) 0

/-- -delta.where(delta < 0, 0). -/
def loss_col (bars : List Bar) : Series :=
  (whereKeep (sLtC (delta_col bars) 0) (delta_col bars) 0).map PVal.neg

def avg_gain_col (bars : List Bar) : Series := wilder_smooth 14 (gain_col bars)

def avg_loss_col (bars : List Bar) : Series := wilder_smooth 14 (loss_col bars)

def rs_col (bars : List Bar) : Series := sDiv (avg_gain_col bars) (avg_loss_col bars)

/-- RSI (lines 318-322): np.where guards for zero average loss / gain,
then fillna(50). -/
def rsi_col (bars : List Bar) : Series :=
  fillnaS 50
    (whereCS (sEqC (avg_loss_col bars) 0) 100
      (whereCS (sEqC (avg_gain_col bars) 0) 0
        (subFromC 100 (divCBy 100 (sAddC 1 (rs_col bars))))))

def up_col (bars : List Bar) : Series := diffS (highs bars)

def down_col (bars : List Bar) : Series := (diffS (lows bars)).map PVal.neg

/-- plusDM = np.where(isna(up), nan, np.where((up > down) and (up > 0), up, 0)). -/
def plusDM_col (bars : List Bar) : Series :=
  List.zipWith (fun u d =>
      if PVal.isna u then PVal.nan
      else if PVal.gtB u d && PVal.gtB u (PVal.num 0) then u else PVal.num 0)
    (up_col bars) (down_col bars)

/-- minusDM = np.where(isna(down), nan, np.where((down > up) and (down > 0), down, 0)). -/
def minusDM_col (bars : List Bar) : Series :=
  List.zipWith (fun u d =>
      if PVal.isna d then PVal.nan
      else if PVal.gtB d u && PVal.gtB d (PVal.num 0) then d else PVal.num 0)
    (up_col bars) (down_col bars)

/-- True range (lines 341-349 and again 374-382): max of high-low,
abs(high-prev_close), abs(low-prev_close), the two shifted terms forced
to 0 at the first row. -/
def true_range_col (bars : List Bar) : Series :=
  maxS3 (sSub (highs bars) (lows bars))
    (setHead (PVal.num 0) (sAbs (sSub (highs bars) (shift1 (closes bars)))))
    (setHead (PVal.num 0) (sAbs (sSub (lows bars) (shift1 (closes bars)))))

def truerange_rma_col (bars : List Bar) : Series := wilder_smooth 14 (true_range_col bars)

def plus_di_col (bars : List Bar) : Series :=
  fillnaS 0 (sMulC 100 (sDiv (wilder_smooth 14 (plusDM_col bars)) (truerange_rma_col bars)))

def minus_di_col (bars : List Bar) : Series :=
  fillnaS 0 (sMulC 100 (sDiv (wilder_smooth 14 (minusDM_col bars)) (truerange_rma_col bars)))

def di_sum_col (bars : List Bar) : Series := sAdd (plus_di_col bars) (minus_di_col bars)

/-- dx = 100 * abs(DI+ - DI-) / np.where(di_sum == 0, 1, di_sum). -/
def dx_col (bars : List Bar) : Series :=
  sDiv (sMulC 100 (sAbs (sSub (plus_di_col bars) (minus_di_col bars))))
    (whereCS (sEqC (di_sum_col bars) 0) 1 (di_sum_col bars))

/-- ADX (line 366-371): Wilder-smoothed DX, fillna(0). -/
def adx_col (bars : List Bar) : Series := fillnaS 0 (wilder_smooth 14 (dx_col bars))

def atr14_col (bars : List Bar) : Series := wilder_smooth 14 (true_range_col bars)

/-- astype(int) * 2 - 1 on a boolean column. -/
def b2sign (b : Bool) : ℚ := if b then 1 else -1

/-- astype(int) / astype(float) on a boolean column. -/
def b01 (b : Bool) : ℚ := if b then 1 else 0

def price_above_ema50_col (bars : List Bar) : List ℚ :=
  (sGt (closes bars) (ema50_col bars)).map b2sign

def price_above_ema200_col (bars : List Bar) : List ℚ :=
  (sGt (closes bars) (ema200_col bars)).map b2sign

def macd_above_signal_col (bars : List Bar) : List ℚ :=
  (sGt (macd_col bars) (macd_signal_col bars)).map b2sign

def rsi_trend_col (bars : List Bar) : List ℚ :=
  (sGtC (rsi_col bars) 50).map b2sign

def strong_trend_col (bars : List Bar) : List ℚ :=
  (sGtC (adx_col bars) 25).map b01

/-- Pointwise combination of the six trend components and the ADX damping
factor (lines 403-413): the raw weighted sum is scaled by
0.5 + 0.5 * strong_trend. -/
def trendCombine : List ℚ → List ℚ → List ℚ → List ℚ → List ℚ → List ℚ →
    List ℚ → Series
  | bu :: bus, be :: bes, p50 :: p50s, p200 :: p200s, m :: ms, r :: rs,
    st :: sts =>
      PVal.num ((bu * (3/10) - be * (3/10) + p50 * (15/100) + p200 * (15/100)
                 + m * (2/10) + r * (2/10)) * (1/2 + 1/2 * st)) ::
      trendCombine bus bes p50s p200s ms rs sts
  | _, _, _, _, _, _, _ => []

def trend_strength_col (bars : List Bar) : Series :=
  trendCombine (ema_aligned_bull_col bars |>.map b01)
    (ema_aligned_bear_col bars |>.map b01)
    (price_above_ema50_col bars) (price_above_ema200_col bars)
    (macd_above_signal_col bars) (rsi_trend_col bars)
    (strong_trend_col bars)

/-! ## Timeframe resampling (NikesMassiveRocketPhemex.resample_to_timeframe,
misterlabsalgototweak.py lines 417-439).  Over a sorted hourly index,
pandas resample followed by dropna aggregates each run of consecutive bars
falling in the same bucket: open = first, high = max, low = min,
close = last, volume = sum; the bucket label is the bucket start.  The
daily rule is step = 24 hours, the 4-hour rule step = 4. -/

/-- Bucket of a bar for a resampling step in hours. -/
def bucketKey (step : ℕ) (b : Bar) : ℕ := b.datetime / step

/-- Group consecutive bars sharing a bucket. -/
def insertRun (step : ℕ) (b : Bar) : List (List Bar) → List (List Bar)
  | [] => [[b]]
  | g :: gs =>
    match g with
    | [] => [b] :: gs
    | c :: _ => if bucketKey step b = bucketKey step c then (b :: g) :: gs
                else [b] :: g :: gs

def groupRuns (step : ℕ) (bars : List Bar) : List (List Bar) :=
  bars.foldr (insertRun step) []

/-- Aggregate one bucket. -/
def aggGroup (step : ℕ) : List Bar → Option Bar
  | [] => none
  | b :: rest =>
    some { datetime := (b.datetime / step) * step
           open_price := b.open_price
           high := rest.foldl (fun m x => max m x.high) b.high
           low := rest.foldl (fun m x => min m x.low) b.low
           close := (rest.foldl (fun _ x => x) b).close
           volume := rest.foldl (fun acc x => acc + x.volume) b.volume }

def resample_to_timeframe (step : ℕ) (bars : List Bar) : List Bar :=
  (groupRuns step bars).filterMap (aggGroup step)

/-- prepare_multi_timeframe_data (lines 441-450): daily and 4-hour
resamples of the hourly input.  The source then runs calculate_indicators
on each frame; here the indicator columns are produced on demand by the
column functions above. -/
def prepare_multi_timeframe_data (hourly : List Bar) :
    List Bar × List Bar × List Bar :=
  (resample_to_timeframe 24 hourly, resample_to_timeframe 4 hourly, hourly)

/-! ## Timeframe combination (NikesMassiveRocketPhemex.combine_timeframes,
misterlabsalgototweak.py lines 452-497) -/

/-- The (datetime, trend_strength) view of an indicator frame. -/
def trendSamples (bars : List Bar) : List (ℕ × PVal) :=
  (bars.map Bar.datetime).zip (trend_strength_col bars)

/-- Positionally last element of a nonempty list. -/
def lastOf {α : Type} (x : α) (xs : List α) : α :=
  xs.foldl (fun _ y => y) x

/-- The as-of join of lines 465-471: the trend value at the last frame
row whose datetime is at most t; NaN when no such row exists. -/
def asofTrend (samples : List (ℕ × PVal)) (t : ℕ) : PVal :=
  match samples.filter (fun s => s.1 ≤ t) with
  | [] => PVal.nan
  | x :: xs => (lastOf x xs).2

/-- combined_trend (lines 474-494): NaN when any of the three trends is
NaN, else the 0.5/0.3/0.2 weighted sum (self.timeframe_weights, lines
65-69). -/
def combined_trend_col (daily medium lower : List Bar) : Series :=
  let ds := trendSamples daily
  let ms := trendSamples medium
  (lower.zip (trend_strength_col lower)).map (fun bl =>
    let d := asofTrend ds bl.1.datetime
    let m := asofTrend ms bl.1.datetime
    let l := bl.2
    if PVal.isna d || PVal.isna m || PVal.isna l then PVal.nan
    else PVal.add (PVal.add (PVal.mul d (PVal.num (5/10)))
           (PVal.mul m (PVal.num (3/10)))) (PVal.mul l (PVal.num (2/10))))

/-- timeframe_alignment (lines 488-495): 1 - (0.4|d-m| + 0.4|d-l| +
0.2|m-l|)/2, NaN when any of the three trends is NaN. -/
def timeframe_alignment_col (daily medium lower : List Bar) : Series :=
  let ds := trendSamples daily
  let ms := trendSamples medium
  (lower.zip (trend_strength_col lower)).map (fun bl =>
    let d := asofTrend ds bl.1.datetime
    let m := asofTrend ms bl.1.datetime
    let l := bl.2
    if PVal.isna d || PVal.isna m || PVal.isna l then PVal.nan
    else PVal.sub (PVal.num 1)
      (PVal.div
        (PVal.add (PVal.add (PVal.mul (PVal.pabs (PVal.sub d m)) (PVal.num (4/10)))
           (PVal.mul (PVal.pabs (PVal.sub d l)) (PVal.num (4/10))))
          (PVal.mul (PVal.pabs (PVal.sub m l)) (PVal.num (2/10))))
        (PVal.num 2)))

/-! ## Auxiliary definitions: the spec-side Wilder recurrence, constant
synthetic series, and concrete fixtures used by the proofs -/

def wilderSpecRecGo (period prev : ℚ) : List ℚ → List ℚ
  | [] => []
  | x :: xs =>
    let y := prev + (1 / period) * (x - prev)
    y :: wilderSpecRecGo period y xs

/-- The Wilder smoothing recurrence as the spec words it. -/
def wilderSpecRec (period : ℚ) : List ℚ → List ℚ
  | [] => []
  | x :: xs => x :: wilderSpecRecGo period x xs

/-- Bars whose high, low and close all equal the same constant. -/
def AllConstHLC (c : ℚ) (bars : List Bar) : Prop :=
  ∀ b ∈ bars, b.high = c ∧ b.low = c ∧ b.close = c

def constBar (c v : ℚ) (t : ℕ) : Bar :=
  { datetime := t, open_price := c, high := c, low := c, close := c,
    volume := v }

/-- A flat price series: n hourly bars, every price field equal to c. -/
def constSeries (c v : ℚ) (n : ℕ) : List Bar :=
  (List.range n).map (constBar c v)

/-- Bridge from a pandas value to the reported Optional rational: NaN
and infinities are reported as missing. -/
def toOptQ : PVal → Option ℚ
  | PVal.num q => some q
  | _ => none

def c1DummyRow : Row := ⟨0, 1, none, none, none, none⟩

def c1SigRow : Row := ⟨250, 1, some (1/2), some 1, some 50, some (1/50)⟩

def c1LastRow : Row := ⟨251, 1, none, none, none, none⟩

def c1Rows : List Row := List.replicate 250 c1DummyRow ++ [c1SigRow, c1LastRow]

def c1Sd : SignalData :=
  { signal := Sig.BUY, confidence := 1/2, mode := Mode.aggressive,
    entry_price := 1, stop_loss := 97/100, take_profit := 107/100,
    atr := 1/50, risk_per_trade := 1/25 }

def c1Pos : Position :=
  { entry_time := 250, side := Sig.BUY, entry_price := 1,
    position_size := 40000/3, leverage := 4/3, stop_loss := 97/100,
    take_profit := 107/100, entry_fee := 16/3, mode := Mode.aggressive,
    confidence := 1/2 }

def c1Trade : Trade :=
  { entry_time := 250, side := Sig.BUY, entry_price := 1,
    position_size := 40000/3, leverage := 4/3, stop_loss := 97/100,
    take_profit := 107/100, entry_fee := 16/3, mode := Mode.aggressive,
    confidence := 1/2, exit_time := 251, exit_price := 1,
    exit_reason := ExitReason.EndOfData, pnl_dollar := 0, pnl_percent := 0,
    total_fees := none, capital_after := 10000 }

/-- The claim's mode-score formula, for comparison: the confidence term
capped at 0.99 before entering the selector. -/
def spec_capped_mode_score (combined_trend vol_percentile : ℚ) : ℚ :=
  1/2 * min |combined_trend| (99/100) + 1/2 * (1 - vol_percentile / 100)


/-! ## Basic computation lemmas -/

theorem pval_add_num (a b : ℚ) : PVal.add (PVal.num a) (PVal.num b) = PVal.num (a + b) := rfl

theorem pval_mul_num (a b : ℚ) : PVal.mul (PVal.num a) (PVal.num b) = PVal.num (a * b) := rfl

theorem pval_neg_num (a : ℚ) : PVal.neg (PVal.num a) = PVal.num (-a) := rfl

theorem pval_sub_num (a b : ℚ) : PVal.sub (PVal.num a) (PVal.num b) = PVal.num (a - b) := by
  simp [PVal.sub, PVal.add, PVal.neg, sub_eq_add_neg]

theorem pval_pabs_num (a : ℚ) : PVal.pabs (PVal.num a) = PVal.num |a| := rfl

theorem pval_div_num (a b : ℚ) (hb : b ≠ 0) :
    PVal.div (PVal.num a) (PVal.num b) = PVal.num (a / b) := by
  simp [PVal.div, hb]

theorem pval_gtB_num (a b : ℚ) : PVal.gtB (PVal.num a) (PVal.num b) = decide (b < a) := rfl

theorem pval_eqB_num (a b : ℚ) : PVal.eqB (PVal.num a) (PVal.num b) = decide (a = b) := rfl

theorem pval_isna_num (a : ℚ) : PVal.isna (PVal.num a) = false := rfl

/-- The positionally last element of a nonempty list is a member of it. -/
theorem lastOf_mem {α : Type} (x : α) (xs : List α) : lastOf x xs ∈ x :: xs := by
  induction xs generalizing x with
  | nil => simp [lastOf]
  | cons y ys ih =>
    have h := ih y
    simp only [lastOf, List.foldl_cons] at h ⊢
    rcases List.mem_cons.mp h with h1 | h1
    · simp [h1]
    · simp [List.mem_cons.mpr (Or.inr h1)]

/-- asofTrend returns NaN or one of the sample values. -/
theorem asofTrend_cases (samples : List (ℕ × PVal)) (t : ℕ) :
    asofTrend samples t = PVal.nan ∨
      asofTrend samples t ∈ samples.map Prod.snd := by
  rcases hf : samples.filter (fun s => s.1 ≤ t) with _ | ⟨x, xs⟩
  · left
    unfold asofTrend
    rw [hf]
  · right
    unfold asofTrend
    rw [hf]
    have hmem : lastOf x xs ∈ x :: xs := lastOf_mem x xs
    rw [← hf] at hmem
    exact List.mem_map_of_mem Prod.snd (List.mem_of_mem_filter hmem)

/-- Values of trendSamples are values of the trend_strength column. -/
theorem trendSamples_snd_mem (bars : List Bar) (v : PVal)
    (h : v ∈ (trendSamples bars).map Prod.snd) :
    v ∈ trend_strength_col bars := by
  rcases List.mem_map.mp h with ⟨⟨a, b⟩, hab, hb⟩
  have := List.of_mem_zip hab
  simpa [← hb] using this.2

/-! ## The Wilder recurrence (claim C5 groundwork).  wilderSpecRec is the
spec-side recurrence "avg[i] = avg[i-1] + (1/period)(x[i] - avg[i-1])",
seeded by the first observation, stated in plain rationals. -/



theorem ewmGo_eq_wilderSpecRecGo (period prev : ℚ) (xs : List ℚ) :
    ewmGo (1 / period) (PVal.num prev) (liftQ xs) =
      liftQ (wilderSpecRecGo period prev xs) := by
  induction xs generalizing prev with
  | nil => rfl
  | cons x xs ih =>
    simp only [liftQ, List.map_cons, ewmGo, wilderSpecRecGo]
    have harith : (1 - 1 / period) * prev + 1 / period * x
        = prev + 1 / period * (x - prev) := by ring
    simp only [pval_mul_num, pval_add_num, harith]
    exact congrArg _ (ih _)

/-- wilder_smooth computes exactly the spec recurrence on NaN-free input. -/
theorem wilder_smooth_eq_spec_rec (period : ℚ) (xs : List ℚ) :
    wilder_smooth period (liftQ xs) = liftQ (wilderSpecRec period xs) := by
  cases xs with
  | nil => rfl
  | cons x xs =>
    simp only [wilder_smooth, ewmMean, liftQ, List.map_cons, ewmGo,
      wilderSpecRec]
    exact congrArg _ (ewmGo_eq_wilderSpecRecGo period x xs)

/-! ## Shape of the trend_strength column -/

theorem trendCombine_all_num (l1 l2 l3 l4 l5 l6 l7 : List ℚ) :
    ∀ x ∈ trendCombine l1 l2 l3 l4 l5 l6 l7, ∃ q, x = PVal.num q := by
  induction l1 generalizing l2 l3 l4 l5 l6 l7 with
  | nil => intro x hx; simp [trendCombine] at hx
  | cons a as ih =>
    intro x hx
    cases l2 with
    | nil => simp [trendCombine] at hx
    | cons b bs =>
      cases l3 with
      | nil => simp [trendCombine] at hx
      | cons c cs =>
        cases l4 with
        | nil => simp [trendCombine] at hx
        | cons d ds =>
          cases l5 with
          | nil => simp [trendCombine] at hx
          | cons e es =>
            cases l6 with
            | nil => simp [trendCombine] at hx
            | cons f fs =>
              cases l7 with
              | nil => simp [trendCombine] at hx
              | cons g gs =>
                simp only [trendCombine, List.mem_cons] at hx
                rcases hx with h | h
                · exact ⟨_, h⟩
                · exact ih bs cs ds es fs gs x h

theorem trendCombine_length (l1 l2 l3 l4 l5 l6 l7 : List ℚ) (n : ℕ)
    (h1 : l1.length = n) (h2 : l2.length = n) (h3 : l3.length = n)
    (h4 : l4.length = n) (h5 : l5.length = n) (h6 : l6.length = n)
    (h7 : l7.length = n) :
    (trendCombine l1 l2 l3 l4 l5 l6 l7).length = n := by
  induction l1 generalizing l2 l3 l4 l5 l6 l7 n with
  | nil => cases h1; simp [trendCombine]
  | cons a as ih =>
    cases n with
    | zero => simp at h1
    | succ m =>
      cases l2 with
      | nil => simp at h2
      | cons b bs =>
        cases l3 with
        | nil => simp at h3
        | cons c cs =>
          cases l4 with
          | nil => simp at h4
          | cons d ds =>
            cases l5 with
            | nil => simp at h5
            | cons e es =>
              cases l6 with
              | nil => simp at h6
              | cons f fs =>
                cases l7 with
                | nil => simp at h7
                | cons g gs =>
                  simp only [trendCombine, List.length_cons]
                  congr 1
                  exact ih bs cs ds es fs gs m
                    (by simpa using h1) (by simpa using h2)
                    (by simpa using h3) (by simpa using h4)
                    (by simpa using h5) (by simpa using h6)
                    (by simpa using h7)

/-- The combined trend value is bounded by 1 in magnitude when the six
components take their boolean-derived values. -/
theorem trendCombine_value_bound (bu be p50 p200 m r st : ℚ)
    (hbu : bu = 0 ∨ bu = 1) (hbe : be = 0 ∨ be = 1)
    (h50 : p50 = -1 ∨ p50 = 1) (h200 : p200 = -1 ∨ p200 = 1)
    (hm : m = -1 ∨ m = 1) (hr : r = -1 ∨ r = 1)
    (hst : st = 0 ∨ st = 1) :
    -1 ≤ (bu * (3/10) - be * (3/10) + p50 * (15/100) + p200 * (15/100)
          + m * (2/10) + r * (2/10)) * (1/2 + 1/2 * st) ∧
    (bu * (3/10) - be * (3/10) + p50 * (15/100) + p200 * (15/100)
          + m * (2/10) + r * (2/10)) * (1/2 + 1/2 * st) ≤ 1 := by
  have hbu1 : 0 ≤ bu ∧ bu ≤ 1 := by rcases hbu with h | h <;> simp [h]
  have hbe1 : 0 ≤ be ∧ be ≤ 1 := by rcases hbe with h | h <;> simp [h]
  have h501 : -1 ≤ p50 ∧ p50 ≤ 1 := by rcases h50 with h | h <;> norm_num [h]
  have h2001 : -1 ≤ p200 ∧ p200 ≤ 1 := by rcases h200 with h | h <;> norm_num [h]
  have hm1 : -1 ≤ m ∧ m ≤ 1 := by rcases hm with h | h <;> norm_num [h]
  have hr1 : -1 ≤ r ∧ r ≤ 1 := by rcases hr with h | h <;> norm_num [h]
  rcases hst with h | h <;>
    constructor <;> rw [h] <;> nlinarith [hbu1.1, hbu1.2, hbe1.1, hbe1.2,
      h501.1, h501.2, h2001.1, h2001.2, hm1.1, hm1.2, hr1.1, hr1.2]

theorem trendCombine_bounded (l1 l2 l3 l4 l5 l6 l7 : List ℚ)
    (h1 : ∀ x ∈ l1, x = 0 ∨ x = 1) (h2 : ∀ x ∈ l2, x = 0 ∨ x = 1)
    (h3 : ∀ x ∈ l3, x = -1 ∨ x = 1) (h4 : ∀ x ∈ l4, x = -1 ∨ x = 1)
    (h5 : ∀ x ∈ l5, x = -1 ∨ x = 1) (h6 : ∀ x ∈ l6, x = -1 ∨ x = 1)
    (h7 : ∀ x ∈ l7, x = 0 ∨ x = 1) :
    ∀ x ∈ trendCombine l1 l2 l3 l4 l5 l6 l7,
      ∃ q, x = PVal.num q ∧ -1 ≤ q ∧ q ≤ 1 := by
  induction l1 generalizing l2 l3 l4 l5 l6 l7 with
  | nil => intro x hx; simp [trendCombine] at hx
  | cons a as ih =>
    intro x hx
    cases l2 with
    | nil => simp [trendCombine] at hx
    | cons b bs =>
      cases l3 with
      | nil => simp [trendCombine] at hx
      | cons c cs =>
        cases l4 with
        | nil => simp [trendCombine] at hx
        | cons d ds =>
          cases l5 with
          | nil => simp [trendCombine] at hx
          | cons e es =>
            cases l6 with
            | nil => simp [trendCombine] at hx
            | cons f fs =>
              cases l7 with
              | nil => simp [trendCombine] at hx
              | cons g gs =>
                simp only [trendCombine, List.mem_cons] at hx
                rcases hx with h | h
                · refine ⟨_, h, ?_⟩
                  exact trendCombine_value_bound a b c d e f g
                    (h1 a (by simp)) (h2 b (by simp)) (h3 c (by simp))
                    (h4 d (by simp)) (h5 e (by simp)) (h6 f (by simp))
                    (h7 g (by simp))
                · exact ih bs cs ds es fs gs
                    (fun x hx => h1 x (List.mem_cons_of_mem _ hx))
                    (fun x hx => h2 x (List.mem_cons_of_mem _ hx))
                    (fun x hx => h3 x (List.mem_cons_of_mem _ hx))
                    (fun x hx => h4 x (List.mem_cons_of_mem _ hx))
                    (fun x hx => h5 x (List.mem_cons_of_mem _ hx))
                    (fun x hx => h6 x (List.mem_cons_of_mem _ hx))
                    (fun x hx => h7 x (List.mem_cons_of_mem _ hx))
                    x h

/-- Every entry of trend_strength_col is a finite rational. -/
theorem trend_strength_col_all_num (bars : List Bar) :
    ∀ x ∈ trend_strength_col bars, ∃ q, x = PVal.num q :=
  trendCombine_all_num _ _ _ _ _ _ _

theorem b01_cases (b : Bool) : b01 b = 0 ∨ b01 b = 1 := by
  cases b <;> simp [b01]

theorem b2sign_cases (b : Bool) : b2sign b = -1 ∨ b2sign b = 1 := by
  cases b <;> simp [b2sign]

/-- Every entry of trend_strength_col is a rational in [-1, 1]. -/
theorem trend_strength_col_bounded (bars : List Bar) :
    ∀ x ∈ trend_strength_col bars, ∃ q, x = PVal.num q ∧ -1 ≤ q ∧ q ≤ 1 := by
  apply trendCombine_bounded
  · intro x hx
    rcases List.mem_map.mp hx with ⟨b, _, hb⟩
    exact hb ▸ b01_cases b
  · intro x hx
    rcases List.mem_map.mp hx with ⟨b, _, hb⟩
    exact hb ▸ b01_cases b
  · intro x hx
    rcases List.mem_map.mp hx with ⟨b, _, hb⟩
    exact hb ▸ b2sign_cases b
  · intro x hx
    rcases List.mem_map.mp hx with ⟨b, _, hb⟩
    exact hb ▸ b2sign_cases b
  · intro x hx
    rcases List.mem_map.mp hx with ⟨b, _, hb⟩
    exact hb ▸ b2sign_cases b
  · intro x hx
    rcases List.mem_map.mp hx with ⟨b, _, hb⟩
    exact hb ▸ b2sign_cases b
  · intro x hx
    rcases List.mem_map.mp hx with ⟨b, _, hb⟩
    exact hb ▸ b01_cases b

/-! ## Constant-series computations -/

theorem zipWith_rep {α β γ : Type} (f : α → β → γ) (n : ℕ) (a : α) (b : β) :
    List.zipWith f (List.replicate n a) (List.replicate n b) =
      List.replicate n (f a b) := by
  induction n with
  | zero => rfl
  | succ m ih => simp [List.replicate_succ, ih]

theorem ewmMean_nan_cons (alpha : ℚ) (xs : Series) :
    ewmMean alpha (PVal.nan :: xs) = PVal.nan :: ewmMean alpha xs := rfl

theorem ewmGo_const (alpha c : ℚ) (n : ℕ) :
    ewmGo alpha (PVal.num c) (List.replicate n (PVal.num c)) =
      List.replicate n (PVal.num c) := by
  induction n with
  | zero => rfl
  | succ m ih =>
    have harith : (1 - alpha) * c + alpha * c = c := by ring
    simp only [List.replicate_succ, ewmGo, pval_mul_num, pval_add_num, harith]
    exact congrArg _ ih

theorem ewmMean_const (alpha c : ℚ) (n : ℕ) :
    ewmMean alpha (List.replicate n (PVal.num c)) =
      List.replicate n (PVal.num c) := by
  cases n with
  | zero => rfl
  | succ m =>
    simp only [List.replicate_succ, ewmMean, ewmGo]
    exact congrArg _ (ewmGo_const alpha c m)

theorem emaSpan_rep (s c : ℚ) (n : ℕ) :
    emaSpan s (List.replicate n (PVal.num c)) =
      List.replicate n (PVal.num c) := ewmMean_const _ c n

theorem wilder_smooth_rep (p c : ℚ) (n : ℕ) :
    wilder_smooth p (List.replicate n (PVal.num c)) =
      List.replicate n (PVal.num c) := ewmMean_const _ c n

theorem shift1_rep (n : ℕ) (v : PVal) :
    shift1 (List.replicate (n + 1) v) = PVal.nan :: List.replicate n v := by
  rw [List.replicate_succ]
  simp [shift1, List.dropLast_replicate]

theorem diffS_rep (n : ℕ) (c : ℚ) :
    diffS (List.replicate (n + 1) (PVal.num c)) =
      PVal.nan :: List.replicate n (PVal.num 0) := by
  rw [diffS, shift1_rep]
  rw [List.replicate_succ]
  simp only [List.zipWith_cons_cons]
  have h1 : PVal.sub (PVal.num c) PVal.nan = PVal.nan := rfl
  have h2 : PVal.sub (PVal.num c) (PVal.num c) = PVal.num 0 := by
    rw [pval_sub_num, sub_self]
  rw [h1, zipWith_rep, h2]

/-- Wilder smoothing of a leading-NaN-then-constant column. -/
theorem ewmMean_nan_rep (alpha c : ℚ) (n : ℕ) :
    ewmMean alpha (PVal.nan :: List.replicate n (PVal.num c)) =
      PVal.nan :: List.replicate n (PVal.num c) := by
  rw [ewmMean_nan_cons, ewmMean_const]


theorem closes_const {c : ℚ} {bars : List Bar} (h : AllConstHLC c bars) :
    closes bars = List.replicate bars.length (PVal.num c) := by
  induction bars with
  | nil => rfl
  | cons b bs ih =>
    have hb := h b (by simp)
    have hrest : AllConstHLC c bs := fun x hx => h x (List.mem_cons_of_mem _ hx)
    simp only [closes, liftQ, List.map_cons, List.length_cons,
      List.replicate_succ, hb.2.2]
    exact congrArg _ (ih hrest)

theorem highs_const {c : ℚ} {bars : List Bar} (h : AllConstHLC c bars) :
    highs bars = List.replicate bars.length (PVal.num c) := by
  induction bars with
  | nil => rfl
  | cons b bs ih =>
    have hb := h b (by simp)
    have hrest : AllConstHLC c bs := fun x hx => h x (List.mem_cons_of_mem _ hx)
    simp only [highs, liftQ, List.map_cons, List.length_cons,
      List.replicate_succ, hb.1]
    exact congrArg _ (ih hrest)

theorem lows_const {c : ℚ} {bars : List Bar} (h : AllConstHLC c bars) :
    lows bars = List.replicate bars.length (PVal.num c) := by
  induction bars with
  | nil => rfl
  | cons b bs ih =>
    have hb := h b (by simp)
    have hrest : AllConstHLC c bs := fun x hx => h x (List.mem_cons_of_mem _ hx)
    simp only [lows, liftQ, List.map_cons, List.length_cons,
      List.replicate_succ, hb.2.1]
    exact congrArg _ (ih hrest)

theorem pval_sub_num_nan (a : ℚ) : PVal.sub (PVal.num a) PVal.nan = PVal.nan := rfl

theorem pval_gtB_nan_num (a : ℚ) : PVal.gtB PVal.nan (PVal.num a) = false := rfl

theorem pval_ltB_nan_num (a : ℚ) : PVal.ltB PVal.nan (PVal.num a) = false := rfl

theorem pval_gtB_num_self (a : ℚ) : PVal.gtB (PVal.num a) (PVal.num a) = false := by
  simp [pval_gtB_num]

theorem pval_neg_nan : PVal.neg PVal.nan = PVal.nan := rfl

theorem pval_div_nan_left (x : PVal) : PVal.div PVal.nan x = PVal.nan := by
  cases x <;> rfl

theorem pval_div_num_zero_zero : PVal.div (PVal.num 0) (PVal.num 0) = PVal.nan := by
  simp [PVal.div]

theorem pval_mul_num_nan (a : ℚ) : PVal.mul (PVal.num a) PVal.nan = PVal.nan := rfl

theorem pval_add_num_nan (a : ℚ) : PVal.add (PVal.num a) PVal.nan = PVal.nan := rfl

theorem pval_eqB_num_self (a : ℚ) : PVal.eqB (PVal.num a) (PVal.num a) = true := by
  simp [pval_eqB_num]

theorem pval_maxSkipNa_num_num_self (a : ℚ) :
    PVal.maxSkipNa (PVal.num a) (PVal.num a) = PVal.num a := by
  simp [PVal.maxSkipNa, PVal.ltB]

theorem gain_col_const {c : ℚ} {bars : List Bar} (h : AllConstHLC c bars) :
    gain_col bars = List.replicate bars.length (PVal.num 0) := by
  unfold gain_col delta_col
  rw [closes_const h]
  cases hl : bars.length with
  | zero => rfl
  | succ m =>
    rw [diffS_rep]
    simp only [sGtC, whereKeep, List.map_cons, List.map_replicate,
      List.zipWith_cons_cons, zipWith_rep, pval_gtB_nan_num,
      pval_gtB_num_self, List.replicate_succ]
    simp

theorem loss_col_const {c : ℚ} {bars : List Bar} (h : AllConstHLC c bars) :
    loss_col bars = List.replicate bars.length (PVal.num 0) := by
  unfold loss_col delta_col
  rw [closes_const h]
  cases hl : bars.length with
  | zero => rfl
  | succ m =>
    rw [diffS_rep]
    simp only [sLtC, whereKeep, List.map_cons, List.map_replicate,
      List.zipWith_cons_cons, zipWith_rep, pval_ltB_nan_num,
      List.replicate_succ]
    have : PVal.ltB (PVal.num 0) (PVal.num 0) = false := by
      simp [PVal.ltB]
    simp [this, pval_neg_num]

theorem rsi_col_const {c : ℚ} {bars : List Bar} (h : AllConstHLC c bars) :
    rsi_col bars = List.replicate bars.length (PVal.num 100) := by
  unfold rsi_col avg_gain_col avg_loss_col rs_col avg_gain_col avg_loss_col
  rw [gain_col_const h, loss_col_const h, wilder_smooth_rep]
  simp only [sDiv, zipWith_rep, pval_div_num_zero_zero, sEqC, sAddC,
    subFromC, divCBy, List.map_replicate, pval_eqB_num_self,
    pval_add_num_nan, pval_div_nan_left, pval_mul_num_nan, pval_sub_num_nan,
    whereCS, zipWith_rep, fillnaS]
  simp

theorem wilder_smooth_nan_rep (p c : ℚ) (n : ℕ) :
    wilder_smooth p (PVal.nan :: List.replicate n (PVal.num c)) =
      PVal.nan :: List.replicate n (PVal.num c) := ewmMean_nan_rep _ c n

theorem true_range_col_const {c : ℚ} {bars : List Bar} (h : AllConstHLC c bars) :
    true_range_col bars = List.replicate bars.length (PVal.num 0) := by
  unfold true_range_col
  rw [closes_const h, highs_const h, lows_const h]
  cases hl : bars.length with
  | zero => rfl
  | succ m =>
    rw [shift1_rep]
    have hsub : PVal.sub (PVal.num c) (PVal.num c) = PVal.num 0 := by
      rw [pval_sub_num, sub_self]
    simp only [sSub, sAbs, maxS3, setHead, List.replicate_succ,
      List.zipWith_cons_cons, zipWith_rep, List.map_cons,
      List.map_replicate, hsub, pval_sub_num_nan, pval_pabs_num,
      pval_maxSkipNa_num_num_self, abs_zero]

theorem plusDM_col_const {c : ℚ} {bars : List Bar} (h : AllConstHLC c bars)
    (m : ℕ) (hl : bars.length = m + 1) :
    plusDM_col bars = PVal.nan :: List.replicate m (PVal.num 0) := by
  unfold plusDM_col up_col down_col
  rw [highs_const h, lows_const h, hl, diffS_rep]
  simp only [List.map_cons, List.map_replicate, pval_neg_nan, pval_neg_num,
    List.zipWith_cons_cons, zipWith_rep, neg_zero]
  simp [PVal.isna, pval_gtB_num_self]

theorem minusDM_col_const {c : ℚ} {bars : List Bar} (h : AllConstHLC c bars)
    (m : ℕ) (hl : bars.length = m + 1) :
    minusDM_col bars = PVal.nan :: List.replicate m (PVal.num 0) := by
  unfold minusDM_col up_col down_col
  rw [highs_const h, lows_const h, hl, diffS_rep]
  simp only [List.map_cons, List.map_replicate, pval_neg_nan, pval_neg_num,
    List.zipWith_cons_cons, zipWith_rep, neg_zero]
  simp [PVal.isna, pval_gtB_num_self]

theorem plus_di_col_const {c : ℚ} {bars : List Bar} (h : AllConstHLC c bars) :
    plus_di_col bars = List.replicate bars.length (PVal.num 0) := by
  cases hbars : bars with
  | nil => rfl
  | cons b bs =>
    rw [← hbars]
    have hl : bars.length = bs.length + 1 := by rw [hbars]; rfl
    unfold plus_di_col truerange_rma_col
    rw [plusDM_col_const h bs.length hl, true_range_col_const h, hl,
      wilder_smooth_rep, wilder_smooth_nan_rep]
    have hdiv : PVal.div PVal.nan (PVal.num 0) = PVal.nan := rfl
    simp only [sDiv, sMulC, fillnaS, List.replicate_succ,
      List.zipWith_cons_cons, zipWith_rep, List.map_cons, List.map_replicate,
      hdiv, pval_div_num_zero_zero, pval_mul_num_nan]
    simp

theorem minus_di_col_const {c : ℚ} {bars : List Bar} (h : AllConstHLC c bars) :
    minus_di_col bars = List.replicate bars.length (PVal.num 0) := by
  cases hbars : bars with
  | nil => rfl
  | cons b bs =>
    rw [← hbars]
    have hl : bars.length = bs.length + 1 := by rw [hbars]; rfl
    unfold minus_di_col truerange_rma_col
    rw [minusDM_col_const h bs.length hl, true_range_col_const h, hl,
      wilder_smooth_rep, wilder_smooth_nan_rep]
    have hdiv : PVal.div PVal.nan (PVal.num 0) = PVal.nan := rfl
    simp only [sDiv, sMulC, fillnaS, List.replicate_succ,
      List.zipWith_cons_cons, zipWith_rep, List.map_cons, List.map_replicate,
      hdiv, pval_div_num_zero_zero, pval_mul_num_nan]
    simp

theorem adx_col_const {c : ℚ} {bars : List Bar} (h : AllConstHLC c bars) :
    adx_col bars = List.replicate bars.length (PVal.num 0) := by
  unfold adx_col dx_col di_sum_col
  rw [plus_di_col_const h, minus_di_col_const h]
  have hsub : PVal.sub (PVal.num 0) (PVal.num 0) = PVal.num 0 := by
    rw [pval_sub_num, sub_self]
  have hdiv : PVal.div (PVal.num 0) (PVal.num 1) = PVal.num 0 := by
    rw [pval_div_num 0 1 one_ne_zero]
    norm_num
  simp only [sAdd, sSub, sAbs, sMulC, sEqC, whereCS, sDiv, zipWith_rep,
    List.map_replicate, pval_add_num, pval_eqB_num, hsub, pval_pabs_num,
    pval_mul_num, abs_zero, mul_zero, add_zero]
  norm_num [hdiv, wilder_smooth_rep, fillnaS]

theorem ema_aligned_bull_col_const {c : ℚ} {bars : List Bar}
    (h : AllConstHLC c bars) :
    ema_aligned_bull_col bars = List.replicate bars.length false := by
  unfold ema_aligned_bull_col ema9_col ema21_col ema50_col ema100_col ema200_col
  rw [closes_const h]
  simp only [emaSpan_rep, sGt, sAnd, zipWith_rep, pval_gtB_num_self,
    Bool.and_false]

theorem ema_aligned_bear_col_const {c : ℚ} {bars : List Bar}
    (h : AllConstHLC c bars) :
    ema_aligned_bear_col bars = List.replicate bars.length false := by
  unfold ema_aligned_bear_col ema9_col ema21_col ema50_col ema100_col ema200_col
  rw [closes_const h]
  simp only [emaSpan_rep, sGt, sAnd, zipWith_rep, pval_gtB_num_self,
    Bool.and_false]

theorem price_above_ema50_col_const {c : ℚ} {bars : List Bar}
    (h : AllConstHLC c bars) :
    price_above_ema50_col bars = List.replicate bars.length (-1 : ℚ) := by
  unfold price_above_ema50_col ema50_col
  rw [closes_const h]
  simp [sGt, zipWith_rep, emaSpan_rep, pval_gtB_num_self, b2sign]

theorem price_above_ema200_col_const {c : ℚ} {bars : List Bar}
    (h : AllConstHLC c bars) :
    price_above_ema200_col bars = List.replicate bars.length (-1 : ℚ) := by
  unfold price_above_ema200_col ema200_col
  rw [closes_const h]
  simp [sGt, zipWith_rep, emaSpan_rep, pval_gtB_num_self, b2sign]

theorem macd_col_const {c : ℚ} {bars : List Bar} (h : AllConstHLC c bars) :
    macd_col bars = List.replicate bars.length (PVal.num 0) := by
  unfold macd_col ema12_col ema26_col
  rw [closes_const h]
  have hsub : PVal.sub (PVal.num c) (PVal.num c) = PVal.num 0 := by
    rw [pval_sub_num, sub_self]
  simp [sSub, emaSpan_rep, zipWith_rep, hsub]

theorem macd_above_signal_col_const {c : ℚ} {bars : List Bar}
    (h : AllConstHLC c bars) :
    macd_above_signal_col bars = List.replicate bars.length (-1 : ℚ) := by
  unfold macd_above_signal_col macd_signal_col
  rw [macd_col_const h]
  simp [sGt, zipWith_rep, emaSpan_rep, pval_gtB_num_self, b2sign]

theorem rsi_trend_col_const {c : ℚ} {bars : List Bar} (h : AllConstHLC c bars) :
    rsi_trend_col bars = List.replicate bars.length (1 : ℚ) := by
  unfold rsi_trend_col
  rw [rsi_col_const h]
  have : PVal.gtB (PVal.num 100) (PVal.num 50) = true := by
    rw [pval_gtB_num]
    norm_num
  simp [sGtC, this, b2sign]

theorem strong_trend_col_const {c : ℚ} {bars : List Bar} (h : AllConstHLC c bars) :
    strong_trend_col bars = List.replicate bars.length (0 : ℚ) := by
  unfold strong_trend_col
  rw [adx_col_const h]
  have : PVal.gtB (PVal.num 0) (PVal.num 25) = false := by
    rw [pval_gtB_num]
    norm_num
  simp [sGtC, this, b01]

theorem trendCombine_rep (n : ℕ) (a b c1 d e f g : ℚ) :
    trendCombine (List.replicate n a) (List.replicate n b)
      (List.replicate n c1) (List.replicate n d) (List.replicate n e)
      (List.replicate n f) (List.replicate n g) =
    List.replicate n (PVal.num ((a * (3/10) - b * (3/10) + c1 * (15/100)
      + d * (15/100) + e * (2/10) + f * (2/10)) * (1/2 + 1/2 * g))) := by
  induction n with
  | zero => rfl
  | succ m ih => simp only [List.replicate_succ, trendCombine, ih]

/-- On a constant price series the trend-strength column is the constant
-3/20 = -0.15 at EVERY bar: the two price-versus-EMA terms and the
MACD-versus-signal term resolve bearish on ties (-0.15 - 0.15 - 0.2), the
RSI term resolves bullish because avg_loss = 0 forces RSI = 100 (+0.2),
the alignment terms are 0, and ADX = 0 halves the sum. -/
theorem trend_strength_col_const {c : ℚ} {bars : List Bar}
    (h : AllConstHLC c bars) :
    trend_strength_col bars =
      List.replicate bars.length (PVal.num (-3/20)) := by
  unfold trend_strength_col
  rw [ema_aligned_bull_col_const h, ema_aligned_bear_col_const h,
    price_above_ema50_col_const h, price_above_ema200_col_const h,
    macd_above_signal_col_const h, rsi_trend_col_const h,
    strong_trend_col_const h]
  simp only [List.map_replicate, b01, if_neg, Bool.false_eq_true,
    not_false_iff, trendCombine_rep]
  norm_num

theorem groupRuns_mem (step : ℕ) (bars : List Bar) :
    ∀ g ∈ groupRuns step bars, ∀ x ∈ g, x ∈ bars := by
  induction bars with
  | nil => intro g hg; simp [groupRuns] at hg
  | cons b bs ih =>
    intro g hg x hx
    have hins : groupRuns step (b :: bs) = insertRun step b (groupRuns step bs) := rfl
    rw [hins] at hg
    rcases hgr : groupRuns step bs with _ | ⟨g0, gs⟩
    · rw [hgr] at hg
      simp only [insertRun, List.mem_singleton] at hg
      subst hg
      simp only [List.mem_singleton] at hx
      simp [hx]
    · rw [hgr] at hg
      rw [hgr] at ih
      cases g0 with
      | nil =>
        simp only [insertRun] at hg
        rcases List.mem_cons.mp hg with h1 | h1
        · subst h1
          simp only [List.mem_singleton] at hx
          simp [hx]
        · exact List.mem_cons_of_mem _ (ih g (List.mem_cons_of_mem _ h1) x hx)
      | cons cbar ccs =>
        simp only [insertRun] at hg
        by_cases hk : bucketKey step b = bucketKey step cbar
        · rw [if_pos hk] at hg
          rcases List.mem_cons.mp hg with h1 | h1
          · subst h1
            rcases List.mem_cons.mp hx with h2 | h2
            · simp [h2]
            · exact List.mem_cons_of_mem _ (ih _ (by simp) x h2)
          · exact List.mem_cons_of_mem _ (ih g (List.mem_cons_of_mem _ h1) x hx)
        · rw [if_neg hk] at hg
          rcases List.mem_cons.mp hg with h1 | h1
          · subst h1
            simp only [List.mem_singleton] at hx
            simp [hx]
          · exact List.mem_cons_of_mem _ (ih g h1 x hx)

theorem foldl_max_const (c : ℚ) (rest : List Bar)
    (h : ∀ x ∈ rest, x.high = c) :
    rest.foldl (fun m x => max m x.high) c = c := by
  induction rest with
  | nil => rfl
  | cons r rs ih =>
    have hr := h r (by simp)
    simp only [List.foldl_cons, hr, max_self]
    exact ih (fun x hx => h x (List.mem_cons_of_mem _ hx))

theorem foldl_min_const (c : ℚ) (rest : List Bar)
    (h : ∀ x ∈ rest, x.low = c) :
    rest.foldl (fun m x => min m x.low) c = c := by
  induction rest with
  | nil => rfl
  | cons r rs ih =>
    have hr := h r (by simp)
    simp only [List.foldl_cons, hr, min_self]
    exact ih (fun x hx => h x (List.mem_cons_of_mem _ hx))

/-- Resampling preserves constant high/low/close. -/
theorem resample_const {c : ℚ} {bars : List Bar} (step : ℕ)
    (h : AllConstHLC c bars) :
    AllConstHLC c (resample_to_timeframe step bars) := by
  intro rb hrb
  unfold resample_to_timeframe at hrb
  rcases List.mem_filterMap.mp hrb with ⟨g, hg, hagg⟩
  cases g with
  | nil => simp [aggGroup] at hagg
  | cons b0 rest =>
    have hmemall : ∀ x ∈ b0 :: rest, x ∈ bars := groupRuns_mem step bars _ hg
    have hb0 := h b0 (hmemall b0 (by simp))
    have hrest : ∀ x ∈ rest, x.high = c ∧ x.low = c ∧ x.close = c :=
      fun x hx => h x (hmemall x (List.mem_cons_of_mem _ hx))
    simp only [aggGroup, Option.some.injEq] at hagg
    subst hagg
    refine ⟨?_, ?_, ?_⟩
    · show rest.foldl (fun m x => max m x.high) b0.high = c
      rw [hb0.1]
      exact foldl_max_const c rest (fun x hx => (hrest x hx).1)
    · show rest.foldl (fun m x => min m x.low) b0.low = c
      rw [hb0.2.1]
      exact foldl_min_const c rest (fun x hx => (hrest x hx).2.1)
    · show (rest.foldl (fun _ x => x) b0).close = c
      have hmem : rest.foldl (fun _ x => x) b0 ∈ b0 :: rest := lastOf_mem b0 rest
      exact (h _ (hmemall _ hmem)).2.2

/-- On constant frames every combined-trend entry is NaN or -3/20. -/
theorem combined_trend_col_const {c : ℚ} {daily medium lower : List Bar}
    (hd : AllConstHLC c daily) (hm : AllConstHLC c medium)
    (hl : AllConstHLC c lower) :
    ∀ x ∈ combined_trend_col daily medium lower,
      x = PVal.nan ∨ x = PVal.num (-3/20) := by
  intro x hx
  simp only [combined_trend_col, List.mem_map] at hx
  rcases hx with ⟨⟨b, lt⟩, hmem, hfx⟩
  have hlt : lt ∈ trend_strength_col lower := (List.of_mem_zip hmem).2
  rw [trend_strength_col_const hl] at hlt
  have hlt2 : lt = PVal.num (-3/20) := List.eq_of_mem_replicate hlt
  rcases asofTrend_cases (trendSamples daily) b.datetime with hd2 | hd2
  · left
    rw [← hfx]
    simp [hd2, PVal.isna]
  · have hdval := trendSamples_snd_mem daily _ hd2
    rw [trend_strength_col_const hd] at hdval
    have hdv := List.eq_of_mem_replicate hdval
    rcases asofTrend_cases (trendSamples medium) b.datetime with hm2 | hm2
    · left
      rw [← hfx]
      simp [hm2, PVal.isna]
    · have hmval := trendSamples_snd_mem medium _ hm2
      rw [trend_strength_col_const hm] at hmval
      have hmv := List.eq_of_mem_replicate hmval
      right
      rw [← hfx]
      simp only [hdv, hmv, hlt2, pval_mul_num, pval_add_num, PVal.isna,
        Bool.or_self, Bool.false_or, if_neg]
      norm_num

/-! ## Weak-trend gate helpers -/

theorem binanceParams_thr (m : Mode) :
    (binanceParams m).trend_strength_threshold = 1/5 := by
  cases m <;> norm_num [binanceParams, phemexParams]

theorem phemexParams_thr (m : Mode) :
    (phemexParams m).trend_strength_threshold = 1/5 := by
  cases m <;> norm_num [phemexParams]

/-- When the combined trend is weaker than the 0.2 threshold shared by
both modes, the backtester's signal is NEUTRAL whatever the other row
fields are. -/
theorem generate_signal_weak_trend (row : Row) (ct : ℚ)
    (hct : row.combined_trend = some ct) (hweak : |ct| < 1/5) :
    ∀ sd, generate_signal binanceParams row = some sd →
      sd.signal = Sig.NEUTRAL := by
  intro sd hsd
  unfold generate_signal at hsd
  rw [hct] at hsd
  cases hal : row.timeframe_alignment with
  | none =>
    rw [hal] at hsd
    simp at hsd
  | some al =>
    rw [hal] at hsd
    simp only [Option.some.injEq] at hsd
    rw [← hsd]
    rw [binanceParams_thr]
    simp only [SignalData.signal]
    simp
    intro h1 _ _ _
    exfalso
    linarith

/-- The live variant is NEUTRAL under the same condition. -/
theorem liveSignalDecision_weak_trend (ct : ℚ) (al vol : Option ℚ)
    (hweak : |ct| < 1/5) :
    (liveSignalDecision (some ct) al vol).1 = Sig.NEUTRAL := by
  cases al with
  | none => rfl
  | some a =>
    cases vol with
    | none =>
      simp only [liveSignalDecision, Option.map_none', phemexParams_thr]
      rw [decide_eq_false (not_le.mpr hweak)]
      simp
    | some v =>
      simp only [liveSignalDecision, Option.map_some', phemexParams_thr]
      rw [decide_eq_false (not_le.mpr hweak)]
      simp [ite_self]

/-! ## Constant synthetic series -/



theorem constSeries_AllConst (c v : ℚ) (n : ℕ) :
    AllConstHLC c (constSeries c v n) := by
  intro b hb
  rcases List.mem_map.mp hb with ⟨t, _, hbt⟩
  rw [← hbt]
  exact ⟨rfl, rfl, rfl⟩

theorem constSeries_length (c v : ℚ) (n : ℕ) :
    (constSeries c v n).length = n := by
  simp [constSeries]


/-- C7 (amended): on a flat/constant synthetic price series the
trend-strength column equals the constant -3/20 = -0.15 at every bar (not
approximately 0: on ties the price-versus-EMA and MACD terms count
bearish, RSI = 100 counts bullish, and ADX = 0 halves the raw -0.3), and
no BUY or SELL signal is ever emitted on any bar: every combined-trend
entry of the multi-timeframe pipeline is NaN or -3/20, whose magnitude
0.15 is below the 0.2 trend threshold of both modes, so the backtester's
generate_signal and the live decision both yield NEUTRAL. -/
theorem C7_theorem (c v : ℚ) (n : ℕ) :
    trend_strength_col (constSeries c v n) =
      List.replicate n (PVal.num (-3/20)) ∧
    (∀ x ∈ combined_trend_col
        (resample_to_timeframe 24 (constSeries c v n))
        (resample_to_timeframe 4 (constSeries c v n))
        (constSeries c v n),
      (∀ row : Row, row.combined_trend = toOptQ x →
        ∀ sd, generate_signal binanceParams row = some sd →
          sd.signal = Sig.NEUTRAL) ∧
      (∀ al vol, (liveSignalDecision (toOptQ x) al vol).1 = Sig.NEUTRAL)) := by
  have hconst := constSeries_AllConst c v n
  constructor
  · rw [trend_strength_col_const hconst, constSeries_length]
  · intro x hx
    have hcase := combined_trend_col_const (resample_const 24 hconst)
      (resample_const 4 hconst) hconst x hx
    rcases hcase with hnan | hval
    · subst hnan
      constructor
      · intro row hrow sd hsd
        simp only [toOptQ] at hrow
        unfold generate_signal at hsd
        rw [hrow] at hsd
        simp at hsd
      · intro al vol
        rfl
    · subst hval
      have hweak : |(-3/20 : ℚ)| < 1/5 := by
        rw [abs_lt]
        constructor <;> norm_num
      constructor
      · intro row hrow sd hsd
        simp only [toOptQ] at hrow
        exact generate_signal_weak_trend row (-3/20) hrow hweak sd hsd
      · intro al vol
        exact liveSignalDecision_weak_trend (-3/20) al vol hweak

/-- C7 (counterexample to the claim as stated): on a flat series of 201
bars, the trend strength at bar 200 — after the 200-bar warm-up — is the
definite value -3/20 = -0.15, not approximately 0. -/
theorem C7_counterexample :
    (trend_strength_col (constSeries 1 1 201))[200]? =
      some (PVal.num (-3/20)) ∧ (-3/20 : ℚ) ≠ 0 := by
  constructor
  · rw [trend_strength_col_const (constSeries_AllConst 1 1 201),
      constSeries_length]
    rw [List.getElem?_replicate_of_lt (by norm_num)]
  · norm_num


/-- The combined-trend column of the one-bar flat pipeline, computed. -/
theorem combined_trend_one_flat_bar : combined_trend_col
    (resample_to_timeframe 24 (constSeries 1 1 1))
    (resample_to_timeframe 4 (constSeries 1 1 1)) (constSeries 1 1 1) =
    [PVal.num (-3/20)] := by
  have hc : constSeries 1 1 1 = [constBar 1 1 0] := rfl
  have hone : trend_strength_col [constBar 1 1 0] = [PVal.num (-3/20)] := by
    have hcst : AllConstHLC 1 [constBar 1 1 0] := by
      intro b hb
      simp only [List.mem_singleton] at hb
      subst hb
      exact ⟨rfl, rfl, rfl⟩
    rw [trend_strength_col_const hcst]
    rfl
  have hdt : Bar.datetime (constBar 1 1 0) = 0 := rfl
  have hr24b : resample_to_timeframe 24 [constBar 1 1 0] =
      [constBar 1 1 0] := rfl
  have hr4b : resample_to_timeframe 4 [constBar 1 1 0] =
      [constBar 1 1 0] := rfl
  simp only [combined_trend_col, trendSamples, hc, hr24b, hr4b, hone]
  simp only [List.map_cons, List.map_nil, List.zip_cons_cons,
    List.zip_nil_right, List.zip_nil_left, hdt]
  norm_num [asofTrend, lastOf, PVal.isna, pval_mul_num, pval_add_num,
    List.filter_cons]

/-- generate_signal returns a record whenever combined_trend and
timeframe_alignment are defined. -/
theorem generate_signal_isSome (params : Mode → StratParams) (row : Row)
    (ct al : ℚ) (h1 : row.combined_trend = some ct)
    (h2 : row.timeframe_alignment = some al) :
    ∃ sd, generate_signal params row = some sd := by
  unfold generate_signal
  rw [h1, h2]
  exact ⟨_, rfl⟩

/-- C7 witness: the amended theorem applied to the one-bar flat series. -/
theorem C7_witness :
    PVal.num (-3/20) ∈ combined_trend_col
        (resample_to_timeframe 24 (constSeries 1 1 1))
        (resample_to_timeframe 4 (constSeries 1 1 1)) (constSeries 1 1 1) ∧
    (∃ sd, generate_signal binanceParams
        { datetime := 0, close := 1, combined_trend := some (-3/20),
          timeframe_alignment := some 1, vol_percentile := some 50,
          atr14 := some (1/50) } = some sd ∧ sd.signal = Sig.NEUTRAL) ∧
    (liveSignalDecision (some (-3/20)) (some 1) (some 50)).1 =
      Sig.NEUTRAL := by
  have hmem : PVal.num (-3/20) ∈ combined_trend_col
      (resample_to_timeframe 24 (constSeries 1 1 1))
      (resample_to_timeframe 4 (constSeries 1 1 1)) (constSeries 1 1 1) := by
    rw [combined_trend_one_flat_bar]
    simp
  obtain ⟨sd, hsd⟩ := generate_signal_isSome binanceParams
    { datetime := 0, close := 1, combined_trend := some (-3/20),
      timeframe_alignment := some 1, vol_percentile := some 50,
      atr14 := some (1/50) } (-3/20) 1 rfl rfl
  exact ⟨hmem,
    ⟨sd, hsd, ((C7_theorem 1 1 1).2 _ hmem).1 _ rfl sd hsd⟩,
    ((C7_theorem 1 1 1).2 _ hmem).2 (some 1) (some 50)⟩

/-! ## Column lengths -/

theorem shift1_length (xs : Series) : (shift1 xs).length = xs.length := by
  cases xs with
  | nil => rfl
  | cons x xs => simp [shift1]

theorem ewmGo_length (alpha : ℚ) (p : PVal) (xs : Series) :
    (ewmGo alpha p xs).length = xs.length := by
  induction xs generalizing p with
  | nil => rfl
  | cons x xs ih => simp [ewmGo, ih]

theorem setHead_length (c : PVal) (xs : Series) :
    (setHead c xs).length = xs.length := by
  cases xs <;> rfl

theorem trend_strength_col_length (bars : List Bar) :
    (trend_strength_col bars).length = bars.length := by
  unfold trend_strength_col
  apply trendCombine_length <;>
    simp [ema_aligned_bull_col, ema_aligned_bear_col, price_above_ema50_col,
      price_above_ema200_col, macd_above_signal_col, rsi_trend_col,
      strong_trend_col, closes, highs, lows, liftQ, ema9_col, ema21_col,
      ema50_col, ema100_col, ema200_col, ema12_col, ema26_col, emaSpan,
      wilder_smooth, ewmMean, macd_col, macd_signal_col, delta_col, gain_col,
      loss_col, avg_gain_col, avg_loss_col, rs_col, rsi_col, up_col, down_col,
      plusDM_col, minusDM_col, true_range_col, truerange_rma_col, plus_di_col,
      minus_di_col, di_sum_col, dx_col, adx_col, sGt, sGtC, sLtC, sEqC, sAnd,
      sAdd, sSub, sDiv, sAbs, sMulC, sAddC, subFromC, divCBy, whereKeep,
      whereCS, fillnaS, maxS3, diffS, shift1_length, ewmGo_length,
      setHead_length]

/-- C2 (amended): trend_strength is DEFINED (a finite rational, never NaN
and never absent) at every bar index of every input series, including all
bars before any 200-bar warm-up: the pandas ewm(adjust=False) EMAs seed
from the first observation and the RSI/ADX NaNs are filled, so no warm-up
absence exists for trend_strength.  (The backtester instead skips the
first 250 bars explicitly.) -/
theorem C2_theorem (bars : List Bar) (i : ℕ) (h : i < bars.length) :
    ∃ q, (trend_strength_col bars)[i]? = some (PVal.num q) := by
  have hlen := trend_strength_col_length bars
  have hi : i < (trend_strength_col bars).length := by rw [hlen]; exact h
  have hget : (trend_strength_col bars)[i]? =
      some ((trend_strength_col bars)[i]) := List.getElem?_eq_getElem hi
  have hmem : (trend_strength_col bars)[i] ∈ trend_strength_col bars :=
    List.getElem_mem hi
  obtain ⟨q, hq⟩ := trend_strength_col_all_num bars _ hmem
  exact ⟨q, by rw [hget, hq]⟩

/-- C2 (counterexample to the claim as stated): at bar index 0 of a
one-bar series — long before the 200-bar EMA warm-up completes — both
trend_strength and combined_trend are reported as the definite finite
value -3/20, not as absent. -/
theorem C2_counterexample :
    (trend_strength_col (constSeries 1 1 1))[0]? =
      some (PVal.num (-3/20)) ∧
    (combined_trend_col (resample_to_timeframe 24 (constSeries 1 1 1))
      (resample_to_timeframe 4 (constSeries 1 1 1))
      (constSeries 1 1 1))[0]? = some (PVal.num (-3/20)) ∧
    (0 : ℕ) < 200 ∧ PVal.num (-3/20) ≠ PVal.nan ∧ (-3/20 : ℚ) ≠ 0 := by
  refine ⟨?_, ?_, by norm_num, by simp, by norm_num⟩
  · rw [trend_strength_col_const (constSeries_AllConst 1 1 1)]
    rfl
  · rw [combined_trend_one_flat_bar]
    rfl

/-- C2 witness: the amended theorem at a concrete bar. -/
theorem C2_witness :
    ∃ q, (trend_strength_col (constSeries 1 1 1))[0]? =
      some (PVal.num q) :=
  C2_theorem (constSeries 1 1 1) 0 (by rw [constSeries_length]; norm_num)

/-- The alignment column of the one-bar flat pipeline, computed. -/
theorem alignment_one_flat_bar : timeframe_alignment_col
    (resample_to_timeframe 24 (constSeries 1 1 1))
    (resample_to_timeframe 4 (constSeries 1 1 1)) (constSeries 1 1 1) =
    [PVal.num 1] := by
  have hc : constSeries 1 1 1 = [constBar 1 1 0] := rfl
  have hone : trend_strength_col [constBar 1 1 0] = [PVal.num (-3/20)] := by
    have hcst : AllConstHLC 1 [constBar 1 1 0] := by
      intro b hb
      simp only [List.mem_singleton] at hb
      subst hb
      exact ⟨rfl, rfl, rfl⟩
    rw [trend_strength_col_const hcst]
    rfl
  have hdt : Bar.datetime (constBar 1 1 0) = 0 := rfl
  have hr24b : resample_to_timeframe 24 [constBar 1 1 0] =
      [constBar 1 1 0] := rfl
  have hr4b : resample_to_timeframe 4 [constBar 1 1 0] =
      [constBar 1 1 0] := rfl
  simp only [timeframe_alignment_col, trendSamples, hc, hr24b, hr4b, hone]
  simp only [List.map_cons, List.map_nil, List.zip_cons_cons,
    List.zip_nil_right, List.zip_nil_left, hdt]
  norm_num [asofTrend, lastOf, PVal.isna, pval_mul_num, pval_add_num,
    pval_sub_num, pval_pabs_num, pval_div_num, List.filter_cons]

/-- C10: every defined trend_strength value lies in [-1, 1] (the raw
six-component sum has magnitude at most 1 and the ADX damping factor is
1/2 or 1); consequently every defined combined_trend — the 0.5/0.3/0.2
weighted sum of three engine trend values — lies in [-1, 1], and every
defined timeframe_alignment of engine trend values lies in [0, 1]. -/
theorem C10_theorem :
    (∀ (bars : List Bar), ∀ x ∈ trend_strength_col bars,
      ∃ q, x = PVal.num q ∧ -1 ≤ q ∧ q ≤ 1) ∧
    (∀ (daily medium lower : List Bar),
      ∀ x ∈ combined_trend_col daily medium lower,
        x = PVal.nan ∨ ∃ q, x = PVal.num q ∧ -1 ≤ q ∧ q ≤ 1) ∧
    (∀ (daily medium lower : List Bar),
      ∀ x ∈ timeframe_alignment_col daily medium lower,
        x = PVal.nan ∨ ∃ q, x = PVal.num q ∧ 0 ≤ q ∧ q ≤ 1) := by
  refine ⟨trend_strength_col_bounded, ?_, ?_⟩
  · intro daily medium lower x hx
    simp only [combined_trend_col, List.mem_map] at hx
    rcases hx with ⟨⟨b, lt⟩, hmem, hfx⟩
    obtain ⟨lq, hlq, hlq1, hlq2⟩ := trend_strength_col_bounded lower lt
      (List.of_mem_zip hmem).2
    rcases asofTrend_cases (trendSamples daily) b.datetime with hd2 | hd2
    · left
      rw [← hfx]
      simp [hd2, PVal.isna]
    · obtain ⟨dq, hdq, hdq1, hdq2⟩ := trend_strength_col_bounded daily _
        (trendSamples_snd_mem daily _ hd2)
      rcases asofTrend_cases (trendSamples medium) b.datetime with hm2 | hm2
      · left
        rw [← hfx]
        simp [hm2, PVal.isna]
      · obtain ⟨mq, hmq, hmq1, hmq2⟩ := trend_strength_col_bounded medium _
          (trendSamples_snd_mem medium _ hm2)
        right
        refine ⟨dq * (5/10) + mq * (3/10) + lq * (2/10), ?_, by linarith,
          by linarith⟩
        rw [← hfx]
        simp only [hdq, hmq, hlq, pval_mul_num, pval_add_num, PVal.isna,
          Bool.or_self, Bool.false_or, if_neg]
        norm_num
  · intro daily medium lower x hx
    simp only [timeframe_alignment_col, List.mem_map] at hx
    rcases hx with ⟨⟨b, lt⟩, hmem, hfx⟩
    obtain ⟨lq, hlq, hlq1, hlq2⟩ := trend_strength_col_bounded lower lt
      (List.of_mem_zip hmem).2
    rcases asofTrend_cases (trendSamples daily) b.datetime with hd2 | hd2
    · left
      rw [← hfx]
      simp [hd2, PVal.isna]
    · obtain ⟨dq, hdq, hdq1, hdq2⟩ := trend_strength_col_bounded daily _
        (trendSamples_snd_mem daily _ hd2)
      rcases asofTrend_cases (trendSamples medium) b.datetime with hm2 | hm2
      · left
        rw [← hfx]
        simp [hm2, PVal.isna]
      · obtain ⟨mq, hmq, hmq1, hmq2⟩ := trend_strength_col_bounded medium _
          (trendSamples_snd_mem medium _ hm2)
        right
        have habs1 : |dq - mq| ≤ 2 := by
          have := abs_sub_abs_le_abs_sub dq mq
          have h2 := abs_sub dq mq
          have ha : |dq| ≤ 1 := abs_le.mpr ⟨hdq1, hdq2⟩
          have hb : |mq| ≤ 1 := abs_le.mpr ⟨hmq1, hmq2⟩
          calc |dq - mq| ≤ |dq| + |mq| := abs_sub dq mq
            _ ≤ 2 := by linarith
        have habs2 : |dq - lq| ≤ 2 := by
          have ha : |dq| ≤ 1 := abs_le.mpr ⟨hdq1, hdq2⟩
          have hb : |lq| ≤ 1 := abs_le.mpr ⟨hlq1, hlq2⟩
          calc |dq - lq| ≤ |dq| + |lq| := abs_sub dq lq
            _ ≤ 2 := by linarith
        have habs3 : |mq - lq| ≤ 2 := by
          have ha : |mq| ≤ 1 := abs_le.mpr ⟨hmq1, hmq2⟩
          have hb : |lq| ≤ 1 := abs_le.mpr ⟨hlq1, hlq2⟩
          calc |mq - lq| ≤ |mq| + |lq| := abs_sub mq lq
            _ ≤ 2 := by linarith
        have hnn1 : 0 ≤ |dq - mq| := abs_nonneg _
        have hnn2 : 0 ≤ |dq - lq| := abs_nonneg _
        have hnn3 : 0 ≤ |mq - lq| := abs_nonneg _
        refine ⟨1 - (|dq - mq| * (4/10) + |dq - lq| * (4/10)
            + |mq - lq| * (2/10)) / 2, ?_, by linarith, by linarith⟩
        rw [← hfx]
        simp only [hdq, hmq, hlq, pval_mul_num, pval_add_num, pval_sub_num,
          pval_pabs_num, PVal.isna, Bool.or_self, Bool.false_or, if_neg]
        rw [pval_div_num _ 2 two_ne_zero, pval_sub_num]
        simp

/-- C10 witness: the bounds at concrete engine-produced values. -/
theorem C10_witness :
    (∃ q, PVal.num (-3/20) = PVal.num q ∧ -1 ≤ q ∧ q ≤ 1) ∧
    (PVal.num (-3/20) = PVal.nan ∨
      ∃ q, PVal.num (-3/20) = PVal.num q ∧ -1 ≤ q ∧ q ≤ 1) ∧
    (PVal.num 1 = PVal.nan ∨
      ∃ q, PVal.num 1 = PVal.num q ∧ 0 ≤ q ∧ q ≤ 1) := by
  have hmem1 : PVal.num (-3/20) ∈ trend_strength_col (constSeries 1 1 1) := by
    rw [trend_strength_col_const (constSeries_AllConst 1 1 1),
      constSeries_length]
    simp
  have hmem2 : PVal.num (-3/20) ∈ combined_trend_col
      (resample_to_timeframe 24 (constSeries 1 1 1))
      (resample_to_timeframe 4 (constSeries 1 1 1)) (constSeries 1 1 1) := by
    rw [combined_trend_one_flat_bar]
    simp
  have hmem3 : PVal.num 1 ∈ timeframe_alignment_col
      (resample_to_timeframe 24 (constSeries 1 1 1))
      (resample_to_timeframe 4 (constSeries 1 1 1)) (constSeries 1 1 1) := by
    rw [alignment_one_flat_bar]
    simp
  exact ⟨C10_theorem.1 _ _ hmem1, C10_theorem.2.1 _ _ _ _ hmem2,
    C10_theorem.2.2 _ _ _ _ hmem3⟩

/-- C5: the canonical indicator engine's wilder_smooth — pandas
ewm(alpha=1/period, adjust=False).mean() — is pointwise equal to the
Wilder recurrence avg[i] = avg[i-1] + (1/period)(x[i] - avg[i-1]) seeded
by the first observation; the engine's RSI (avg gain/loss), ADX
(smoothed TR, DM, DX) and ATR columns are all built from it; and it is
not the simple rolling mean of the legacy variant — already at index 0
the recurrence is seeded while a 14-bar rolling mean is still NaN. -/
theorem C5_theorem :
    (∀ (period : ℚ) (xs : List ℚ),
      wilder_smooth period (liftQ xs) = liftQ (wilderSpecRec period xs)) ∧
    (∀ bars : List Bar,
      avg_gain_col bars = wilder_smooth 14 (gain_col bars) ∧
      avg_loss_col bars = wilder_smooth 14 (loss_col bars) ∧
      truerange_rma_col bars = wilder_smooth 14 (true_range_col bars) ∧
      adx_col bars = fillnaS 0 (wilder_smooth 14 (dx_col bars)) ∧
      atr14_col bars = wilder_smooth 14 (true_range_col bars)) ∧
    wilder_smooth 14 (liftQ [1]) ≠ rollingMean 14 (liftQ [1]) := by
  refine ⟨wilder_smooth_eq_spec_rec,
    fun bars => ⟨rfl, rfl, rfl, rfl, rfl⟩, ?_⟩
  have h1 : wilder_smooth 14 (liftQ [1]) = [PVal.num 1] := rfl
  have h2 : rollingMean 14 (liftQ [1]) = [PVal.nan] := rfl
  rw [h1, h2]
  simp

/-- C9: profit_factor is the sum of winning trades' P&L divided by the
absolute sum of losing trades' P&L; it is float inf for every nonempty
trade log with at least one winning trade and no losing trade, and 0 for
the empty trade log. -/
theorem C9_theorem :
    (∀ pnls : List ℚ, pnls ≠ [] → 0 < gross_loss pnls →
      profit_factor pnls =
        PFResult.val (gross_profit pnls / gross_loss pnls)) ∧
    (∀ pnls : List ℚ, (∃ x ∈ pnls, 0 < x) → (∀ x ∈ pnls, ¬ x < 0) →
      profit_factor pnls = PFResult.posInf) ∧
    profit_factor [] = PFResult.val 0 := by
  refine ⟨?_, ?_, rfl⟩
  · intro pnls hne hgl
    simp [profit_factor, hne, hgl]
  · rintro pnls ⟨x, hx, _⟩ hnoneg
    have hne : pnls ≠ [] := by
      intro h
      subst h
      simp at hx
    have hfilter : pnls.filter (fun y => y < 0) = [] := by
      rw [List.filter_eq_nil_iff]
      intro a ha
      simp [hnoneg a ha]
    have hgl0 : gross_loss pnls = 0 := by
      rw [gross_loss, hfilter]
      simp
    simp [profit_factor, hne, hgl0]

/-- C9 witness: the three profit-factor cases at concrete trade logs. -/
theorem C9_witness :
    profit_factor [3, -1, 2] =
      PFResult.val (gross_profit [3, -1, 2] / gross_loss [3, -1, 2]) ∧
    profit_factor [5] = PFResult.posInf ∧
    profit_factor [] = PFResult.val 0 := by
  refine ⟨C9_theorem.1 _ (by simp) ?_, C9_theorem.2.1 _ ⟨5, by simp,
    by norm_num⟩ ?_, C9_theorem.2.2⟩
  · have : gross_loss [3, -1, 2] = 1 := by
      norm_num [gross_loss, List.filter_cons]
    rw [this]
    norm_num
  · intro x hx
    rw [List.mem_singleton] at hx
    subst hx
    norm_num







theorem foldl_stepBar_skip (params : Mode → StratParams)
    (maxLev fee : ℚ) (s : SimState) (l : List (ℕ × Row))
    (h : ∀ p ∈ l, p.1 < 250) :
    l.foldl (stepBar params maxLev fee) s = s := by
  induction l generalizing s with
  | nil => rfl
  | cons p ps ih =>
    simp only [List.foldl_cons]
    rw [show stepBar params maxLev fee s p = s from by
      simp [stepBar, h p (List.mem_cons_self p ps)]]
    exact ih s (fun q hq => h q (List.mem_cons_of_mem _ hq))


theorem stepBar_eq (params : Mode → StratParams) (maxLev fee : ℚ)
    (s : SimState) (i : ℕ) (row : Row) :
    stepBar params maxLev fee s (i, row) = if i < 250 then s
      else tryEntry params maxLev fee (handleExit fee s row.close row.datetime)
        row := rfl

theorem handleExit_none (fee cap : ℚ) (trades : List Trade) (price : ℚ)
    (t : ℕ) :
    handleExit fee { capital := cap, position := none, trades := trades }
      price t = { capital := cap, position := none, trades := trades } := rfl

theorem handleExit_some (fee cap : ℚ) (trades : List Trade) (p : Position)
    (price : ℚ) (t : ℕ) :
    handleExit fee { capital := cap, position := some p, trades := trades }
      price t =
      match exitCheck p price with
      | some (reason, exit_price) =>
        { capital := (closeTradeUpdate fee cap p exit_price reason t).1,
          position := none,
          trades := trades ++ [(closeTradeUpdate fee cap p exit_price reason t).2] }
      | none => { capital := cap, position := some p, trades := trades } := by
  cases hc : exitCheck p price with
  | none => simp [handleExit, hc]
  | some re => simp [handleExit, hc]

theorem tryEntry_none (params : Mode → StratParams) (maxLev fee cap : ℚ)
    (trades : List Trade) (row : Row) :
    tryEntry params maxLev fee
      { capital := cap, position := none, trades := trades } row =
      match generate_signal params row with
      | some sd =>
        if sd.signal = Sig.BUY ∨ sd.signal = Sig.SELL then
          match simulate_trade maxLev fee cap sd row.datetime with
          | some pos => { capital := cap, position := some pos, trades := trades }
          | none => { capital := cap, position := none, trades := trades }
        else { capital := cap, position := none, trades := trades }
      | none => { capital := cap, position := none, trades := trades } := rfl

theorem tryEntry_some (params : Mode → StratParams) (maxLev fee cap : ℚ)
    (trades : List Trade) (p : Position) (row : Row) :
    tryEntry params maxLev fee
      { capital := cap, position := some p, trades := trades } row =
      { capital := cap, position := some p, trades := trades } := rfl

theorem c1_gen : generate_signal binanceParams c1SigRow = some c1Sd := by
  have habs : |(1/2 : ℚ)| = 1/2 := abs_of_pos (by norm_num)
  norm_num [generate_signal, c1SigRow, c1Sd, binanceParams, phemexParams,
    confidence_mode_selector, modeOfScore, npSign, habs]

theorem c1_sim : simulate_trade 10 (1/2500) 10000 c1Sd 250 = some c1Pos := by
  have habs : |(3/100 : ℚ)| = 3/100 := abs_of_pos (by norm_num)
  norm_num [simulate_trade, c1Sd, c1Pos, habs, min_def]

theorem c1_step1 : stepBar binanceParams 10 (1/2500)
    { capital := 10000, position := none, trades := [] } (250, c1SigRow) =
    { capital := 10000, position := some c1Pos, trades := [] } := by
  rw [stepBar_eq, if_neg (by norm_num : ¬ ((250 : ℕ) < 250)),
    handleExit_none, tryEntry_none, c1_gen]
  have hdt : c1SigRow.datetime = 250 := rfl
  have hsv : c1Sd.signal = Sig.BUY := rfl
  simp only [hdt, hsv]
  rw [if_pos (Or.inl trivial), c1_sim]

theorem c1_step2 : stepBar binanceParams 10 (1/2500)
    { capital := 10000, position := some c1Pos, trades := [] }
    (251, c1LastRow) =
    { capital := 10000, position := some c1Pos, trades := [] } := by
  have hcheck : exitCheck c1Pos 1 = none := by
    norm_num [exitCheck, c1Pos]
  rw [stepBar_eq, if_neg (by norm_num : ¬ ((251 : ℕ) < 250))]
  have hcl : c1LastRow.close = 1 := rfl
  rw [hcl, handleExit_some, hcheck]
  exact tryEntry_some _ _ _ _ _ _ _

theorem c1_run : run_backtest binanceParams 10 (1/2500) 10000 c1Rows =
    { capital := 10000, position := none, trades := [c1Trade] } := by
  unfold run_backtest
  have henum : c1Rows.enum = (List.replicate 250 c1DummyRow).enum ++
      [(250, c1SigRow), (251, c1LastRow)] := by
    unfold c1Rows
    rw [List.enum_append]
    norm_num [List.enumFrom]
  have hskip : ((List.replicate 250 c1DummyRow).enum).foldl
      (stepBar binanceParams 10 (1/2500))
      { capital := 10000, position := none, trades := [] } =
      { capital := 10000, position := none, trades := [] } := by
    apply foldl_stepBar_skip
    intro p hp
    have h := List.fst_lt_of_mem_enum hp
    rw [List.length_replicate] at h
    exact h
  rw [henum, List.foldl_append, hskip, List.foldl_cons, c1_step1,
    List.foldl_cons, c1_step2, List.foldl_nil]
  have hlast : c1Rows.getLast? = some c1LastRow := by
    unfold c1Rows
    rw [List.getLast?_append]
    rfl
  rw [hlast]
  have hfc : finalCloseUpdate 10000 c1Pos 1 251 = (10000, c1Trade) := by
    norm_num [finalCloseUpdate, priceChangePct, c1Pos, c1Trade]
  have hcl : c1LastRow.close = 1 := rfl
  have hdt : c1LastRow.datetime = 251 := rfl
  simp only [hcl, hdt, hfc]
  simp

/-- C1 (amended): for a stop-loss or take-profit close inside the loop,
equity_after = equity_before * (1 + leveraged_return) - (entry_fee +
exit_fee) exactly; for the forced End-of-Data close NO fees are
subtracted: equity_after = equity_before * (1 + leveraged_return); and
equity compounds — every position the simulator opens is sized from the
current equity, position_size = equity * risk_per_trade / |entry - stop|. -/
theorem C1_theorem :
    (∀ (fee cap : ℚ) (p : Position) (e : ℚ) (r : ExitReason) (t : ℕ),
      (closeTradeUpdate fee cap p e r t).1 =
        cap * (1 + priceChangePct p e * p.leverage) -
          (p.entry_fee + p.position_size * e * fee)) ∧
    (∀ (cap : ℚ) (p : Position) (e : ℚ) (t : ℕ),
      (finalCloseUpdate cap p e t).1 =
        cap * (1 + priceChangePct p e * p.leverage)) ∧
    (∀ (maxLev fee cap : ℚ) (sd : SignalData) (t : ℕ) (pos : Position),
      simulate_trade maxLev fee cap sd t = some pos →
      pos.position_size = cap * sd.risk_per_trade /
        |sd.entry_price - sd.stop_loss|) := by
  refine ⟨?_, ?_, ?_⟩
  · intro fee cap p e r t
    simp only [closeTradeUpdate]
    ring
  · intro cap p e t
    simp only [finalCloseUpdate]
    ring
  · intro maxLev fee cap sd t pos hsim
    unfold simulate_trade at hsim
    by_cases hs : sd.signal = Sig.BUY ∨ sd.signal = Sig.SELL
    · rw [if_pos hs] at hsim
      by_cases hr : |sd.entry_price - sd.stop_loss| ≤ 0
      · rw [if_pos hr] at hsim
        exact absurd hsim (by simp)
      · rw [if_neg hr] at hsim
        simp only [Option.some.injEq] at hsim
        rw [← hsim]
    · rw [if_neg hs] at hsim
      exact absurd hsim (by simp)

/-- C1 (counterexample to the claim as stated): a concrete 252-bar run in
which the only trade is closed by the forced End-of-Data close; its
equity after the close is 10000 — equal to equity_before * (1 +
leveraged_return) with NO fee subtraction — and differs from the claimed
equity_before * (1 + leveraged_return) - (entry_fee + exit_fee), since
the position's entry fee 16/3 is positive and never charged. -/
theorem C1_counterexample :
    ∃ t : Trade,
      (run_backtest binanceParams 10 (1/2500) 10000 c1Rows).trades = [t] ∧
      t.exit_reason = ExitReason.EndOfData ∧ 0 < t.entry_fee ∧
      t.capital_after = 10000 ∧
      t.capital_after ≠ 10000 * (1 + t.pnl_percent / 100) -
        (t.entry_fee + t.position_size * t.exit_price * (1/2500)) := by
  refine ⟨c1Trade, ?_, rfl, by norm_num [c1Trade], rfl, ?_⟩
  · rw [c1_run]
  · norm_num [c1Trade]

/-- C1 witness: the compounding-sizing clause of the amended theorem at a
concrete opened position. -/
theorem C1_witness :
    c1Pos.position_size = 10000 * c1Sd.risk_per_trade /
      |c1Sd.entry_price - c1Sd.stop_loss| :=
  C1_theorem.2.2 10 (1/2500) 10000 c1Sd 250 c1Pos c1_sim

theorem if_lt_one_max (a : ℚ) : (if a < 1 then (1 : ℚ) else a) = max 1 a := by
  by_cases h : a < 1
  · rw [if_pos h, max_eq_left (le_of_lt h)]
  · rw [if_neg h, max_eq_right (not_lt.mp h)]

/-- The open branch of simulate_trade, in closed form. -/
theorem simulate_trade_opens (max_leverage trading_fee cap : ℚ)
    (sd : SignalData) (t : ℕ)
    (hdir : sd.signal = Sig.BUY ∨ sd.signal = Sig.SELL)
    (hlt : 0 < |sd.entry_price - sd.stop_loss|) :
    simulate_trade max_leverage trading_fee cap sd t = some
      { entry_time := t, side := sd.signal, entry_price := sd.entry_price,
        position_size := cap * sd.risk_per_trade /
          |sd.entry_price - sd.stop_loss|,
        leverage := max 1 (min (cap * sd.risk_per_trade /
          |sd.entry_price - sd.stop_loss| * sd.entry_price / cap)
          max_leverage),
        stop_loss := sd.stop_loss, take_profit := sd.take_profit,
        entry_fee := cap * sd.risk_per_trade /
          |sd.entry_price - sd.stop_loss| * sd.entry_price * trading_fee,
        mode := sd.mode, confidence := sd.confidence } := by
  unfold simulate_trade
  rw [if_pos hdir, if_neg (not_le.mpr hlt)]
  simp only [if_lt_one_max]

/-- C3: from FLAT, a BUY or SELL signal opens a position with
position_size = equity * risk_per_trade / |entry - stop|, leverage
clamped into [1, max_leverage] from position_value / equity, and
entry_fee = position_value * fee_rate; the signal is rejected — the bar
stays FLAT — when |entry - stop| <= 0.  At equity 10000 with
risk_per_trade 0.02 and stop distance 0.03 the size is 20000/3 (about
6666.67) and the leverage clamps up to 1. -/
theorem C3_theorem (params : Mode → StratParams)
    (max_leverage trading_fee : ℚ) (s : SimState) (i : ℕ) (row : Row)
    (sd : SignalData) (hskip : ¬ i < 250) (hflat : s.position = none)
    (hsig : generate_signal params row = some sd)
    (hdir : sd.signal = Sig.BUY ∨ sd.signal = Sig.SELL) :
    ((|sd.entry_price - sd.stop_loss| ≤ 0 →
      (stepBar params max_leverage trading_fee s (i, row)).position = none) ∧
     (0 < |sd.entry_price - sd.stop_loss| →
      (stepBar params max_leverage trading_fee s (i, row)).position = some
        { entry_time := row.datetime, side := sd.signal,
          entry_price := sd.entry_price,
          position_size := s.capital * sd.risk_per_trade /
            |sd.entry_price - sd.stop_loss|,
          leverage := max 1 (min (s.capital * sd.risk_per_trade /
            |sd.entry_price - sd.stop_loss| * sd.entry_price / s.capital)
            max_leverage),
          stop_loss := sd.stop_loss, take_profit := sd.take_profit,
          entry_fee := s.capital * sd.risk_per_trade /
            |sd.entry_price - sd.stop_loss| * sd.entry_price * trading_fee,
          mode := sd.mode, confidence := sd.confidence })) ∧
    (∃ pos, simulate_trade 10 (1/2500) 10000
      { signal := Sig.BUY, confidence := 1/2, mode := Mode.conservative,
        entry_price := 1, stop_loss := 97/100, take_profit := 105/100,
        atr := 1/50, risk_per_trade := 2/100 } 0 = some pos ∧
      pos.position_size = 20000/3 ∧ pos.leverage = 1) := by
  obtain ⟨cap, pos, tr⟩ := s
  simp only [SimState.position] at hflat
  subst hflat
  refine ⟨⟨?_, ?_⟩, ?_⟩
  · intro hle
    have hsim : simulate_trade max_leverage trading_fee cap sd row.datetime
        = none := by
      unfold simulate_trade
      rw [if_pos hdir, if_pos hle]
    rw [stepBar_eq, if_neg hskip, handleExit_none, tryEntry_none, hsig]
    simp only [if_pos hdir, hsim]
  · intro hlt
    rw [stepBar_eq, if_neg hskip, handleExit_none, tryEntry_none, hsig]
    simp only [if_pos hdir, simulate_trade_opens max_leverage trading_fee cap
      sd row.datetime hdir hlt]
  · refine ⟨_, simulate_trade_opens 10 (1/2500) 10000 _ 0 (Or.inl rfl) ?_,
      ?_, ?_⟩
    · have h3 : |(1 : ℚ) - 97/100| = 3/100 := by
        rw [show (1 : ℚ) - 97/100 = 3/100 by norm_num]
        exact abs_of_pos (by norm_num)
      rw [h3]
      norm_num
    · have h3 : |(1 : ℚ) - 97/100| = 3/100 := by
        rw [show (1 : ℚ) - 97/100 = 3/100 by norm_num]
        exact abs_of_pos (by norm_num)
      simp only [h3]
      norm_num
    · have h3 : |(1 : ℚ) - 97/100| = 3/100 := by
        rw [show (1 : ℚ) - 97/100 = 3/100 by norm_num]
        exact abs_of_pos (by norm_num)
      simp only [h3]
      rw [max_eq_left]
      rw [min_eq_left (by norm_num)]
      norm_num

/-- C3 witness: the open clause at the concrete 10000-equity BUY row. -/
theorem C3_witness :
    (stepBar binanceParams 10 (1/2500)
      { capital := 10000, position := none, trades := [] }
      (250, c1SigRow)).position = some
      { entry_time := c1SigRow.datetime, side := c1Sd.signal,
        entry_price := c1Sd.entry_price,
        position_size := (10000 : ℚ) * c1Sd.risk_per_trade /
          |c1Sd.entry_price - c1Sd.stop_loss|,
        leverage := max 1 (min ((10000 : ℚ) * c1Sd.risk_per_trade /
          |c1Sd.entry_price - c1Sd.stop_loss| * c1Sd.entry_price / 10000)
          10),
        stop_loss := c1Sd.stop_loss, take_profit := c1Sd.take_profit,
        entry_fee := (10000 : ℚ) * c1Sd.risk_per_trade /
          |c1Sd.entry_price - c1Sd.stop_loss| * c1Sd.entry_price * (1/2500),
        mode := c1Sd.mode, confidence := c1Sd.confidence } :=
  (C3_theorem binanceParams 10 (1/2500)
    { capital := 10000, position := none, trades := [] } 250 c1SigRow c1Sd
    (by norm_num) rfl c1_gen (Or.inl rfl)).1.2
    (by
      have h3 : |c1Sd.entry_price - c1Sd.stop_loss| = 3/100 := by
        have : c1Sd.entry_price - c1Sd.stop_loss = 3/100 := by
          norm_num [c1Sd]
        rw [this]
        exact abs_of_pos (by norm_num)
      rw [h3]
      norm_num)

/-- C8: at most one Position is ever held — the state's position slot is
a single Option; a new position is opened only when the simulator is
FLAT (tryEntry is the identity when a position is held); every triggered
exit transitions the state back to FLAT; and each bar processes its exit
before its entry, so no pyramiding or hedging can occur. -/
theorem C8_theorem :
    (∀ (params : Mode → StratParams) (maxLev fee : ℚ) (s : SimState)
      (row : Row) (p : Position), s.position = some p →
      tryEntry params maxLev fee s row = s) ∧
    (∀ (fee : ℚ) (s : SimState) (price : ℚ) (t : ℕ) (p : Position)
      (r : ExitReason) (e : ℚ), s.position = some p →
      exitCheck p price = some (r, e) →
      (handleExit fee s price t).position = none) ∧
    (∀ (params : Mode → StratParams) (maxLev fee : ℚ) (s : SimState)
      (i : ℕ) (row : Row), stepBar params maxLev fee s (i, row) =
      if i < 250 then s
      else tryEntry params maxLev fee
        (handleExit fee s row.close row.datetime) row) := by
  refine ⟨?_, ?_, fun params maxLev fee s i row => stepBar_eq _ _ _ _ _ _⟩
  · intro params maxLev fee s row p hpos
    obtain ⟨cap, pos, tr⟩ := s
    simp only [SimState.position] at hpos
    subst hpos
    exact tryEntry_some _ _ _ _ _ _ _
  · intro fee s price t p r e hpos hcheck
    obtain ⟨cap, pos, tr⟩ := s
    simp only [SimState.position] at hpos
    subst hpos
    rw [handleExit_some, hcheck]

/-- C8 witness: no new entry while a position is held, and a stop-loss
hit transitions to FLAT, at concrete states. -/
theorem C8_witness :
    tryEntry binanceParams 10 (1/2500)
      { capital := 10000, position := some c1Pos, trades := [] } c1SigRow =
      { capital := 10000, position := some c1Pos, trades := [] } ∧
    (handleExit (1/2500)
      { capital := 10000, position := some c1Pos, trades := [] }
      (97/100) 251).position = none := by
  have hec : exitCheck c1Pos (97/100) =
      some (ExitReason.StopLoss, 97/100) := by
    norm_num [exitCheck, c1Pos]
  exact ⟨C8_theorem.1 binanceParams 10 (1/2500) _ c1SigRow c1Pos rfl,
    C8_theorem.2.1 (1/2500) _ (97/100) 251 c1Pos ExitReason.StopLoss
      (97/100) rfl hec⟩

theorem npSign_pos (q : ℚ) : 0 < npSign q ↔ 0 < q := by
  by_cases h : 0 < q
  · simp [npSign, h]
  · have hn : ¬ (0 : ℚ) < npSign q := by
      unfold npSign
      rw [if_neg h]
      by_cases h2 : q < 0
      · rw [if_pos h2]
        norm_num
      · rw [if_neg h2]
        norm_num
    exact iff_of_false hn h

/-- C4: with a fully defined CombinedSignal row, the backtest-grade
signal is BUY (combined_trend > 0) or SELL (combined_trend < 0) exactly
when all four gates hold — trend threshold range, volatility percentile
range, and alignment > 0.3 — and NEUTRAL exactly when some gate fails;
the live variant has the same characterization without the alignment
gate. -/
theorem C4_theorem :
    (∀ (params : Mode → StratParams) (row : Row) (ct al v : ℚ),
      (∀ m, 0 < (params m).trend_strength_threshold) →
      row.combined_trend = some ct → row.timeframe_alignment = some al →
      row.vol_percentile = some v →
      ∃ sd, generate_signal params row = some sd ∧
        ((sd.signal = Sig.BUY ↔
          ((params (modeOfScore (some (confidence_mode_selector |ct| v)))).trend_strength_threshold ≤ |ct| ∧
           |ct| ≤ (params (modeOfScore (some (confidence_mode_selector |ct| v)))).max_trend_strength_threshold ∧
           (params (modeOfScore (some (confidence_mode_selector |ct| v)))).min_volatility_percentile ≤ v ∧
           v ≤ 90 ∧ 3/10 < al) ∧ 0 < ct) ∧
         (sd.signal = Sig.SELL ↔
          ((params (modeOfScore (some (confidence_mode_selector |ct| v)))).trend_strength_threshold ≤ |ct| ∧
           |ct| ≤ (params (modeOfScore (some (confidence_mode_selector |ct| v)))).max_trend_strength_threshold ∧
           (params (modeOfScore (some (confidence_mode_selector |ct| v)))).min_volatility_percentile ≤ v ∧
           v ≤ 90 ∧ 3/10 < al) ∧ ct < 0) ∧
         (sd.signal = Sig.NEUTRAL ↔
          ¬ ((params (modeOfScore (some (confidence_mode_selector |ct| v)))).trend_strength_threshold ≤ |ct| ∧
           |ct| ≤ (params (modeOfScore (some (confidence_mode_selector |ct| v)))).max_trend_strength_threshold ∧
           (params (modeOfScore (some (confidence_mode_selector |ct| v)))).min_volatility_percentile ≤ v ∧
           v ≤ 90 ∧ 3/10 < al)))) ∧
    (∀ (ct al v : ℚ),
      (((liveSignalDecision (some ct) (some al) (some v)).1 = Sig.BUY ↔
        ((phemexParams (modeOfScore (some (confidence_mode_selector |ct| v)))).trend_strength_threshold ≤ |ct| ∧
         |ct| ≤ (phemexParams (modeOfScore (some (confidence_mode_selector |ct| v)))).max_trend_strength_threshold ∧
         (phemexParams (modeOfScore (some (confidence_mode_selector |ct| v)))).min_volatility_percentile ≤ v ∧
         v ≤ 90) ∧ 0 < ct) ∧
       ((liveSignalDecision (some ct) (some al) (some v)).1 = Sig.SELL ↔
        ((phemexParams (modeOfScore (some (confidence_mode_selector |ct| v)))).trend_strength_threshold ≤ |ct| ∧
         |ct| ≤ (phemexParams (modeOfScore (some (confidence_mode_selector |ct| v)))).max_trend_strength_threshold ∧
         (phemexParams (modeOfScore (some (confidence_mode_selector |ct| v)))).min_volatility_percentile ≤ v ∧
         v ≤ 90) ∧ ct < 0) ∧
       ((liveSignalDecision (some ct) (some al) (some v)).1 = Sig.NEUTRAL ↔
        ¬ ((phemexParams (modeOfScore (some (confidence_mode_selector |ct| v)))).trend_strength_threshold ≤ |ct| ∧
         |ct| ≤ (phemexParams (modeOfScore (some (confidence_mode_selector |ct| v)))).max_trend_strength_threshold ∧
         (phemexParams (modeOfScore (some (confidence_mode_selector |ct| v)))).min_volatility_percentile ≤ v ∧
         v ≤ 90)))) := by
  constructor
  · intro params row ct al v hthr hct hal hv
    obtain ⟨sd, hsd⟩ := generate_signal_isSome params row ct al hct hal
    refine ⟨sd, hsd, ?_⟩
    unfold generate_signal at hsd
    rw [hct, hal, hv] at hsd
    simp only [Option.map_some', Option.some.injEq] at hsd
    subst hsd
    simp only [SignalData.signal]
    by_cases hg : (params (modeOfScore (some (confidence_mode_selector |ct| v)))).trend_strength_threshold ≤ |ct| ∧
        |ct| ≤ (params (modeOfScore (some (confidence_mode_selector |ct| v)))).max_trend_strength_threshold ∧
        (params (modeOfScore (some (confidence_mode_selector |ct| v)))).min_volatility_percentile ≤ v ∧
        v ≤ 90 ∧ 3/10 < al
    · obtain ⟨hg1, hg2, hg3, hg4, hg5⟩ := hg
      rw [if_pos (by simp [hg1, hg2, hg3, hg4, hg5])]
      have hct0 : ct ≠ 0 := by
        intro hc
        subst hc
        simp at hg1
        have := hthr (modeOfScore (some (confidence_mode_selector |(0 : ℚ)| v)))
        simp at this
        linarith
      by_cases hpos : 0 < ct
      · rw [if_pos ((npSign_pos ct).mpr hpos)]
        refine ⟨by simp [hg1, hg2, hg3, hg4, hg5, hpos], ?_, ?_⟩
        · simp [asymm hpos]
        · simp [hg1, hg2, hg3, hg4, hg5]
      · have hneg : ct < 0 := lt_of_le_of_ne (not_lt.mp hpos) hct0
        rw [if_neg (fun hc => hpos ((npSign_pos ct).mp hc))]
        refine ⟨by simp [hpos], by simp [hg1, hg2, hg3, hg4, hg5, hneg], ?_⟩
        simp [hg1, hg2, hg3, hg4, hg5]
    · rw [if_neg (by
        simp only [Bool.and_eq_true, decide_eq_true_eq]
        intro hc
        exact hg ⟨hc.1.1.1, hc.1.1.2, hc.1.2.1, hc.1.2.2, hc.2⟩)]
      refine ⟨by simp [hg], by simp [hg], by simp [hg]⟩
  · intro ct al v
    simp only [liveSignalDecision, Option.map_some']
    by_cases hf : v < (phemexParams (modeOfScore (some (confidence_mode_selector |ct| v)))).min_volatility_percentile ∨ 90 < v
    · rw [if_pos hf]
      have hng : ¬ ((phemexParams (modeOfScore (some (confidence_mode_selector |ct| v)))).trend_strength_threshold ≤ |ct| ∧
          |ct| ≤ (phemexParams (modeOfScore (some (confidence_mode_selector |ct| v)))).max_trend_strength_threshold ∧
          (phemexParams (modeOfScore (some (confidence_mode_selector |ct| v)))).min_volatility_percentile ≤ v ∧
          v ≤ 90) := by
        rintro ⟨-, -, h3, h4⟩
        rcases hf with hf | hf
        · exact absurd h3 (not_le.mpr hf)
        · exact absurd h4 (not_le.mpr hf)
      exact ⟨by simp [hng], by simp [hng], by simp [hng]⟩
    · rw [if_neg hf]
      push_neg at hf
      by_cases hg : (phemexParams (modeOfScore (some (confidence_mode_selector |ct| v)))).trend_strength_threshold ≤ |ct| ∧
          |ct| ≤ (phemexParams (modeOfScore (some (confidence_mode_selector |ct| v)))).max_trend_strength_threshold
      · rw [if_pos (by simp [hg.1, hg.2])]
        have hct0 : ct ≠ 0 := by
          intro hc
          subst hc
          have := hg.1
          rw [phemexParams_thr] at this
          simp at this
          linarith
        by_cases hpos : 0 < ct
        · rw [if_pos ((npSign_pos ct).mpr hpos)]
          refine ⟨by simp [hg.1, hg.2, hf.1, hf.2, hpos], ?_, ?_⟩
          · simp [asymm hpos]
          · simp [hg.1, hg.2, hf.1, hf.2]
        · have hneg : ct < 0 := lt_of_le_of_ne (not_lt.mp hpos) hct0
          rw [if_neg (fun hc => hpos ((npSign_pos ct).mp hc))]
          refine ⟨by simp [hpos], by simp [hg.1, hg.2, hf.1, hf.2, hneg], ?_⟩
          simp [hg.1, hg.2, hf.1, hf.2]
      · rw [if_neg (by
          simp only [Bool.and_eq_true, decide_eq_true_eq]
          intro hc
          exact hg ⟨hc.1, hc.2⟩)]
        have hng : ¬ ((phemexParams (modeOfScore (some (confidence_mode_selector |ct| v)))).trend_strength_threshold ≤ |ct| ∧
            |ct| ≤ (phemexParams (modeOfScore (some (confidence_mode_selector |ct| v)))).max_trend_strength_threshold ∧
            (phemexParams (modeOfScore (some (confidence_mode_selector |ct| v)))).min_volatility_percentile ≤ v ∧
            v ≤ 90) := by
          rintro ⟨h1, h2, -, -⟩
          exact hg ⟨h1, h2⟩
        exact ⟨by simp [hng], by simp [hng], by simp [hng]⟩

/-- C4 witness: the characterization at a concrete passing row. -/
theorem C4_witness :
    ∃ sd, generate_signal binanceParams c1SigRow = some sd ∧
      sd.signal = Sig.BUY := by
  have habs : |(1/2 : ℚ)| = 1/2 := abs_of_pos (by norm_num)
  have hmode : modeOfScore (some (confidence_mode_selector |(1/2 : ℚ)| 50))
      = Mode.aggressive := by
    norm_num [confidence_mode_selector, modeOfScore, habs]
  obtain ⟨sd, hsd, hiff⟩ := C4_theorem.1 binanceParams c1SigRow (1/2) 1 50
    (fun m => by rw [binanceParams_thr]; norm_num) rfl rfl rfl
  refine ⟨sd, hsd, hiff.1.mpr ⟨⟨?_, ?_, ?_, ?_, ?_⟩, by norm_num⟩⟩
  · rw [binanceParams_thr, habs]
    norm_num
  · rw [hmode, habs]
    norm_num [binanceParams, phemexParams]
  · rw [hmode]
    norm_num [binanceParams, phemexParams]
  · norm_num
  · norm_num


/-- C6 (counterexample to the claim as stated): at combined_trend = 1 and
vol_percentile = 100, the code's selector score is 0.5 — aggressive —
while the claimed formula with confidence = min(|ct|, 0.99) yields 0.495
— conservative; the two formulas are observably different. -/
theorem C6_counterexample :
    modeOfScore (some (confidence_mode_selector |(1 : ℚ)| 100))
      = Mode.aggressive ∧
    modeOfScore (some (spec_capped_mode_score 1 100))
      = Mode.conservative ∧
    confidence_mode_selector |(1 : ℚ)| 100 ≠ spec_capped_mode_score 1 100 := by
  have habs : |(1 : ℚ)| = 1 := abs_one
  have hmin : min |(1 : ℚ)| (99/100) = 99/100 := by
    rw [habs]
    exact min_eq_right (by norm_num)
  refine ⟨?_, ?_, ?_⟩ <;>
    norm_num [confidence_mode_selector, spec_capped_mode_score, modeOfScore,
      habs, hmin]

/-- C6 (amended): the selector computes score = 0.5*confidence +
0.5*(1 - vol_percentile/100), mode is aggressive exactly when the score
is at least 0.5, and in the backtester the confidence fed into the
selector is the UNCAPPED |combined_trend| — the min(|ct|, 0.99) cap
applies only to the confidence reported in the live output, after mode
selection. -/
theorem C6_theorem :
    (∀ confidence vol_percentile : ℚ,
      confidence_mode_selector confidence vol_percentile =
        1/2 * confidence + 1/2 * (1 - vol_percentile / 100)) ∧
    (∀ s : ℚ, modeOfScore (some s) = Mode.aggressive ↔ 1/2 ≤ s) ∧
    (∀ (params : Mode → StratParams) (row : Row) (ct al v : ℚ)
      (sd : SignalData), row.combined_trend = some ct →
      row.timeframe_alignment = some al → row.vol_percentile = some v →
      generate_signal params row = some sd →
      sd.mode = modeOfScore (some (confidence_mode_selector |ct| v))) := by
  refine ⟨fun c v => rfl, ?_, ?_⟩
  · intro s
    unfold modeOfScore
    by_cases h : (1 : ℚ)/2 ≤ s
    · simp [h]
    · simp [h]
  · intro params row ct al v sd hct hal hv hsd
    unfold generate_signal at hsd
    rw [hct, hal, hv] at hsd
    simp only [Option.map_some', Option.some.injEq] at hsd
    rw [← hsd]

/-- C6 witness: the uncapped-confidence mode equation at a concrete row. -/
theorem C6_witness :
    ∃ sd, generate_signal binanceParams c1SigRow = some sd ∧
      sd.mode = modeOfScore
        (some (confidence_mode_selector |(1/2 : ℚ)| 50)) := by
  obtain ⟨sd, hsd⟩ := generate_signal_isSome binanceParams c1SigRow
    (1/2) 1 rfl rfl
  exact ⟨sd, hsd,
    C6_theorem.2.2 binanceParams c1SigRow (1/2) 1 50 sd rfl rfl rfl hsd⟩
